import Mathlib

/-!
# TMC2209 stepper driver component: embedding and verified properties

Shallow embedding of `esphome/components/tmc2209/tmc2209.cpp`.

* Chip registers are a map from register address to a 32-bit word.
* `float`/`double` expressions are evaluated in exact rational arithmetic
  (`ℚ`); every `float` and `double` value is a rational number, only the
  rounding of the individual operations is idealised.
* A conversion of a floating value to `uint8_t` truncates toward zero and
  keeps the low eight bits. The language defines the conversion only for
  values whose integer part is in 0..255; the general theorems on the current
  scale state that range as a hypothesis.
* The alert callback manager is the list of delivered events.
-/

namespace TMC2209

/-! ## Register / field codec -/

/-- Descriptor of a bit-field inside a 32-bit register: register address,
bit offset, bit width and signedness. -/
structure FieldSpec where
  reg : Nat
  offset : Nat
  width : Nat
  signed : Bool
  deriving DecidableEq, Repr

/-- Register file of the chip as seen through the UART register protocol:
address to 32-bit word. -/
abbrev Regs := Nat → Nat

/-- Bit mask of a field inside its register. -/
def FieldSpec.mask (f : FieldSpec) : Nat := (2 ^ f.width - 1) <<< f.offset

/-- Modelled from the spec: `read_register` of the component header (not under
src/), a pass-through register read. -/
def read_register (st : Regs) (addr : Nat) : Nat := st addr

/-- Modelled from the spec: `write_register` of the component header (not under
src/), a pass-through write of a raw 32-bit word. -/
def write_register (st : Regs) (addr : Nat) (value : Nat) : Regs :=
  fun a => if a = addr then value % 2 ^ 32 else st a

/-- Modelled from the spec: `read_field` of the component header (not under
src/): reads the register, extracts `width` bits at `offset`, sign-extends
when the field is signed. -/
def read_field (f : FieldSpec) (st : Regs) : Int :=
  let v := (read_register st f.reg &&& f.mask) >>> f.offset
  if f.signed ∧ 2 ^ (f.width - 1) ≤ v then (v : Int) - 2 ^ f.width else (v : Int)

/-- Modelled from the spec: `write_field` of the component header (not under
src/): a field covering the whole register is written directly, any other
field is written by read, replace the targeted bits, write back. -/
def write_field (f : FieldSpec) (value : Nat) (st : Regs) : Regs :=
  if f.offset = 0 ∧ f.width = 32 then
    write_register st f.reg value
  else
    write_register st f.reg
      ((read_register st f.reg &&& (0xFFFFFFFF ^^^ f.mask)) ||| ((value <<< f.offset) &&& f.mask))

/-- The `TMC2209_*_FIELD` constants of the vendor register header used by the
source file. The header is not part of the sources, so the table is a
parameter of the embedding. -/
structure FieldTable where
  MRES : FieldSpec
  VSENSE : FieldSpec
  IHOLD : FieldSpec
  IRUN : FieldSpec
  IHOLDDELAY : FieldSpec
  TPOWERDOWN : FieldSpec

/-- Two fields never share a bit. -/
def FieldSpec.disjoint (f g : FieldSpec) : Prop :=
  f.reg ≠ g.reg ∨ f.offset + f.width ≤ g.offset ∨ g.offset + g.width ≤ f.offset

instance (f g : FieldSpec) : Decidable (f.disjoint g) := by
  unfold FieldSpec.disjoint; infer_instance

/-- An unsigned field of the given width that lies inside the 32-bit word
(the invariant `offset + width ≤ 32` of the data model). -/
def FieldSpec.unsignedOfWidth (f : FieldSpec) (w : Nat) : Prop :=
  f.signed = false ∧ f.width = w ∧ f.offset + f.width ≤ 32

instance (f : FieldSpec) (w : Nat) : Decidable (f.unsignedOfWidth w) := by
  unfold FieldSpec.unsignedOfWidth; infer_instance

/-- Well-formed field table: the widths the chip documents (4-bit MRES, 1-bit
VSENSE, 5-bit IHOLD and IRUN, 4-bit IHOLDDELAY, 8-bit TPOWERDOWN), every field
inside the word, and distinct fields on distinct bits. -/
def FieldTable.WF (T : FieldTable) : Prop :=
  T.MRES.unsignedOfWidth 4 ∧ T.VSENSE.unsignedOfWidth 1 ∧
  T.IHOLD.unsignedOfWidth 5 ∧ T.IRUN.unsignedOfWidth 5 ∧
  T.IHOLDDELAY.unsignedOfWidth 4 ∧ T.TPOWERDOWN.unsignedOfWidth 8 ∧
  T.IHOLD.disjoint T.IRUN ∧ T.IHOLD.disjoint T.VSENSE ∧ T.IRUN.disjoint T.VSENSE ∧
  T.IHOLD.disjoint T.IHOLDDELAY ∧ T.IRUN.disjoint T.IHOLDDELAY

instance (T : FieldTable) : Decidable T.WF := by
  unfold FieldTable.WF; infer_instance

/-- The field layout of the chip's data sheet: CHOPCONF (0x6C) holds MRES in
bits 24..27 and VSENSE in bit 17, IHOLD_IRUN (0x10) holds IHOLD in bits 0..4,
IRUN in bits 8..12 and IHOLDDELAY in bits 16..19, TPOWERDOWN (0x11) is bits
0..7. Used for concrete evaluations. -/
def datasheetFields : FieldTable where
  MRES := ⟨0x6C, 24, 4, false⟩
  VSENSE := ⟨0x6C, 17, 1, false⟩
  IHOLD := ⟨0x10, 0, 5, false⟩
  IRUN := ⟨0x10, 8, 5, false⟩
  IHOLDDELAY := ⟨0x10, 16, 4, false⟩
  TPOWERDOWN := ⟨0x11, 0, 8, false⟩

/-- Conversion of an integer value to `uint8_t`. -/
def to_uint8 (z : Int) : Nat := (z % 256).toNat

/-- Conversion of a floating value to `uint8_t`: truncation toward zero, then
the low eight bits. -/
def float_to_uint8 (q : ℚ) : Nat := to_uint8 (q.num.tdiv q.den)

/-- Conversion of an integer value to `bool`. -/
def to_bool (z : Int) : Bool := decide (z ≠ 0)

/-! ## Driver state -/

/-- The members of the driver object the modelled methods use, with the chip
registers reached through the UART. -/
structure Driver where
  regs : Regs
  rsense_ : ℚ
  rms_current_ : ℚ
  rms_current_hold_scale_ : ℚ
  oscillator_freq_ : Nat

/-! ## Field setters and getters (lines 240-283) -/

def set_ihold_irun_ihold (T : FieldTable) (current : Nat) (d : Driver) : Driver :=
  { d with regs := write_field T.IRUN current d.regs }

def set_ihold_irun_irun (T : FieldTable) (current : Nat) (d : Driver) : Driver :=
  { d with regs := write_field T.IHOLD current d.regs }

def set_chopconf_mres (T : FieldTable) (index : Nat) (d : Driver) : Driver :=
  { d with regs := write_field T.MRES index d.regs }

def set_chopconf_vsense (T : FieldTable) (high_sensitivity : Bool) (d : Driver) : Driver :=
  { d with regs := write_field T.VSENSE (if high_sensitivity then 1 else 0) d.regs }

def set_tpowerdown (T : FieldTable) (factor : Nat) (d : Driver) : Driver :=
  { d with regs := write_field T.TPOWERDOWN factor d.regs }

def set_ihold_irun_ihold_delay (T : FieldTable) (factor : Nat) (d : Driver) : Driver :=
  let factor := if factor > 15 then 15 else factor
  { d with regs := write_field T.IHOLDDELAY factor d.regs }

def get_chopconf_vsense (T : FieldTable) (d : Driver) : Bool :=
  to_bool (read_field T.VSENSE d.regs)

def get_ihold_irun_irun (T : FieldTable) (d : Driver) : Nat :=
  to_uint8 (read_field T.IHOLD d.regs)

def get_ihold_irun_ihold_delay (T : FieldTable) (d : Driver) : Nat :=
  to_uint8 (read_field T.IHOLDDELAY d.regs)

def get_chopconf_mres (T : FieldTable) (d : Driver) : Nat :=
  to_uint8 (read_field T.MRES d.regs)

def get_tpowerdown (T : FieldTable) (d : Driver) : Nat :=
  to_uint8 (read_field T.TPOWERDOWN d.regs)

/-! ## Microsteps (lines 144-153) -/

def get_microsteps (T : FieldTable) (d : Driver) : Nat :=
  let mres := get_chopconf_mres T d
  (256 >>> mres) % 2 ^ 16

/-- The loop `for (uint8_t mres = 8; mres > 0; mres--)` of `set_microsteps`,
entered with the loop variable at the given value. -/
def set_microsteps_loop (T : FieldTable) (ms : Nat) : Nat → Driver → Driver
  | 0, d => d
  | mres + 1, d =>
    if (256 >>> (mres + 1)) = ms then set_chopconf_mres T (mres + 1) d
    else set_microsteps_loop T ms mres d

def set_microsteps (T : FieldTable) (ms : Nat) (d : Driver) : Driver :=
  set_microsteps_loop T ms 8 d

/-- The registers the modelled fields live in, as `setup()` writes them:
IHOLD_IRUN, TPOWERDOWN and CHOPCONF (lines 49-51). -/
def regsAfterSetup : Regs :=
  write_register (write_register (write_register (fun _ => 0) 0x10 0x00071703) 0x11 0x00000014)
    0x6C 0x10000053

/-- A driver after `setup()` with a 0.11 ohm sense resistor and a 12 MHz clock. -/
def driverAfterSetup : Driver where
  regs := regsAfterSetup
  rsense_ := 0.11
  rms_current_ := 0
  rms_current_hold_scale_ := 0
  oscillator_freq_ := 12000000

/-! ## Current scaling (lines 160-195) -/

/-- The method `set_rms_current_` (lines 173-190). The warning of the clamp only
logs and is left out. -/
def set_rms_current_ (T : FieldTable) (d : Driver) : Driver :=
  let current_scale : Nat :=
    float_to_uint8 (32.0 * 1.41421 * d.rms_current_ * (d.rsense_ + 0.02) / 0.325 - 1)
  let (d, current_scale) :=
    if current_scale < 16 then
      (set_chopconf_vsense T true d,
        float_to_uint8 (32.0 * 1.41421 * d.rms_current_ * (d.rsense_ + 0.02) / 0.180 - 1))
    else
      (set_chopconf_vsense T false d, current_scale)
  let current_scale := if current_scale > 31 then 31 else current_scale
  let d := set_ihold_irun_irun T current_scale d
  set_ihold_irun_ihold T (float_to_uint8 ((current_scale : ℚ) * d.rms_current_hold_scale_)) d

def set_rms_current (T : FieldTable) (A : ℚ) (d : Driver) : Driver :=
  set_rms_current_ T { d with rms_current_ := A }

def rms_current_hold_scale (T : FieldTable) (scale : ℚ) (d : Driver) : Driver :=
  set_rms_current_ T { d with rms_current_hold_scale_ := scale }

/-- The value of `sqrtf(2)`: the single-precision number nearest to the square
root of two, `0x3FB504F3`. -/
def sqrtf_2 : ℚ := 11863283 / 8388608

def current_scale_to_rms_current_ (T : FieldTable) (current_scaling : Nat) (d : Driver) : ℚ :=
  ((current_scaling : ℚ) + 1) / 32.0 * (if get_chopconf_vsense T d then 0.180 else 0.325) /
    (d.rsense_ + 0.02) / sqrtf_2

def get_rms_current (T : FieldTable) (d : Driver) : ℚ :=
  current_scale_to_rms_current_ T (get_ihold_irun_irun T d) d

/-- The value of the expression
`32.0 * 1.41421 * rms_current_ * (rsense_ + 0.02) / Vfs - 1` of
`set_rms_current_` for a full-scale voltage `Vfs` (0.325 or 0.180). -/
def scaleValue (I R Vfs : ℚ) : ℚ := 32.0 * 1.41421 * I * (R + 0.02) / Vfs - 1

/-- The recovered current `I'` is within `factor` quantization steps of the
5-bit scale of `I`: `|I' - I| ≤ factor * Vfs / 32 / (Rsense + 0.02) / sqrt(2)`
with `Vfs = 0.180` if vsense is set and `0.325` otherwise. -/
def WithinSteps (factor : ℚ) (vsense : Bool) (R I I' : ℚ) : Prop :=
  |(I' : ℝ) - (I : ℝ)| ≤
    (factor : ℝ) * (if vsense then 0.180 else 0.325) / 32 / ((R : ℝ) + 0.02) / Real.sqrt 2

/-! ## Delays in milliseconds (lines 197-209) -/

/-- The setter `ihold_irun_ihold_delay_ms(uint32_t delay_in_ms)`. -/
def ihold_irun_ihold_delay_ms (T : FieldTable) (delay_in_ms : Nat) (d : Driver) : Driver :=
  set_ihold_irun_ihold_delay T
    (float_to_uint8 (((delay_in_ms : ℚ) / 262144.0) * ((d.oscillator_freq_ : ℚ) / 1000.0))) d

/-- The getter `ihold_irun_ihold_delay_ms()`, in unsigned 32-bit arithmetic. The
source divides by `oscillator_freq_ / 1000`, which is zero below 1 kHz; the
quotient is then 0 here. -/
def ihold_irun_ihold_delay_ms_read (T : FieldTable) (d : Driver) : Nat :=
  ((get_ihold_irun_ihold_delay T d * 262144) / (d.oscillator_freq_ / 1000)) % 2 ^ 32

/-- The setter `tpowerdown_ms(uint32_t delay_in_ms)`. -/
def tpowerdown_ms (T : FieldTable) (delay_in_ms : Nat) (d : Driver) : Driver :=
  set_tpowerdown T
    (float_to_uint8 (((delay_in_ms : ℚ) / 262144.0) * ((d.oscillator_freq_ : ℚ) / 1000.0))) d

/-- The getter `tpowerdown_ms()`, in unsigned 32-bit arithmetic, with the same
division as `ihold_irun_ihold_delay_ms_read`. -/
def tpowerdown_ms_read (T : FieldTable) (d : Driver) : Nat :=
  ((get_tpowerdown T d * 262144) / (d.oscillator_freq_ / 1000)) % 2 ^ 32

/-! ## UART callback of the vendor library (lines 216-238) -/

/-- One call on the UART device of a component. -/
inductive UartOp where
  | write_array (len : Nat)
  | read_array (len : Nat)
  | flush
  deriving DecidableEq, Repr

/-- The UART device a component inherits: bytes transmitted so far, bytes
waiting in the receive buffer, and the calls made on it, oldest first. -/
structure UARTDevice where
  tx : List Nat
  rx : List Nat
  ops : List UartOp

/-- A byte buffer reached through a pointer. -/
abbrev Buffer := Nat → Nat

/-- Transmits the first `len` bytes of the buffer. -/
def write_array (data : Buffer) (len : Nat) (u : UARTDevice) : UARTDevice :=
  { u with tx := u.tx ++ (List.range len).map data, ops := u.ops ++ [UartOp.write_array len] }

/-- Takes `len` bytes from the receive buffer into the start of the buffer. -/
def read_array (data : Buffer) (len : Nat) (u : UARTDevice) : Buffer × UARTDevice :=
  (fun i => if i < len then u.rx.getD i 0 else data i,
    { u with rx := u.rx.drop len, ops := u.ops ++ [UartOp.read_array len] })

def flush (u : UARTDevice) : UARTDevice :=
  { u with ops := u.ops ++ [UartOp.flush] }

/-- The global `components` table: id to registered instance. -/
abbrev Components := Nat → Option UARTDevice

/-- The callback `tmc2209_readWriteUART`; `none` when the id was never
registered. Returns the result, the buffer and the component's UART. -/
def tmc2209_readWriteUART (components : Components) (id : Nat) (data : Buffer)
    (writeLength readLength : Nat) : Option (Bool × Buffer × UARTDevice) :=
  match components id with
  | none => none
  | some comp =>
    let (data, comp) :=
      if writeLength > 0 then
        let comp := write_array data writeLength comp
        let (data, comp) := read_array data writeLength comp
        (data, flush comp)
      else (data, comp)
    let (data, comp) :=
      if readLength > 0 then read_array data readLength comp else (data, comp)
    some (true, data, comp)

/-- A registry with one component, id 0, whose receive buffer holds the echo of
a four-byte read request and two reply bytes. Used for concrete evaluations. -/
def sampleComponents : Components :=
  fun id => if id = 0 then some ⟨[], [5, 0, 108, 202, 7, 9], []⟩ else none

/-- A buffer holding a four-byte read request. -/
def sampleRequest : Buffer := fun i => [5, 0, 108, 202].getD i 0

/-! ## Alert events and threshold handlers (lines 78-142) -/

inductive AlertEvent where
  | STALLED
  | DIAG_TRIGGERED
  | INDEX_TRIGGERED
  | TEMPERATURE_NORMAL
  | OVERTEMPERATURE_PREWARNING
  | OVERTEMPERATURE
  | TEMPERATURE_ABOVE_120C
  | TEMPERATURE_BELOW_120C
  | TEMPERATURE_ABOVE_143C
  | TEMPERATURE_BELOW_143C
  | TEMPERATURE_ABOVE_150C
  | TEMPERATURE_BELOW_150C
  | TEMPERATURE_ABOVE_157C
  | TEMPERATURE_BELOW_157C
  deriving DecidableEq, Repr

open AlertEvent

/-- The events delivered to the listeners of `on_alert_callback_`, oldest
first. Delivery is synchronous, so the list is the order of delivery. -/
abbrev AlertLog := List AlertEvent

/-- The broadcast `on_alert_callback_.call(event)`. -/
def on_alert_callback_call (event : AlertEvent) (log : AlertLog) : AlertLog :=
  log ++ [event]

/-- Modelled from the spec: the threshold handler class of the component header
(not under src/): the previous value, an optional rise callback and an
optional fall callback. A callback acts on the driver's alert broadcast. -/
structure EventHandler where
  prev_ : Bool
  callback_rise_ : Option (AlertLog → AlertLog)
  callback_fall_ : Option (AlertLog → AlertLog)

/-- Modelled from the spec: a handler starts in state `false` with no callback
registered. -/
def EventHandler.init : EventHandler := ⟨false, none, none⟩

/-- Modelled from the spec: `set_callback` registers the rise callback only. -/
def EventHandler.set_callback (h : EventHandler) (callback : AlertLog → AlertLog) :
    EventHandler :=
  { h with callback_rise_ := some callback }

/-- Modelled from the spec: `set_callbacks` registers the rise and the fall
callback. -/
def EventHandler.set_callbacks (h : EventHandler) (rise fall : AlertLog → AlertLog) :
    EventHandler :=
  { h with callback_rise_ := some rise, callback_fall_ := some fall }

/-- Modelled from the spec: `check(new_value)`: when the value differs from the
previous one, the rise callback runs for `true` and the fall callback for
`false`, each only if registered; the previous value is updated
unconditionally. -/
def EventHandler.check (h : EventHandler) (new_value : Bool) (log : AlertLog) :
    EventHandler × AlertLog :=
  let log :=
    if new_value ≠ h.prev_ ∧ new_value = true then
      match h.callback_rise_ with
      | some callback => callback log
      | none => log
    else if new_value ≠ h.prev_ ∧ new_value = false then
      match h.callback_fall_ with
      | some callback => callback log
      | none => log
    else log
  ({ h with prev_ := new_value }, log)

/-- The build switches `USE_DIAG_PIN` and `USE_INDEX_PIN`. -/
structure BuildFlags where
  USE_DIAG_PIN : Bool
  USE_INDEX_PIN : Bool
  deriving DecidableEq, Repr

/-- The members of the driver object the event engine uses. -/
structure EventState where
  diag_triggered_ : Bool
  index_triggered_ : Bool
  diag_handler_ : EventHandler
  index_handler_ : EventHandler
  nt_handler_ : EventHandler
  otpw_handler_ : EventHandler
  ot_handler_ : EventHandler
  t120_handler_ : EventHandler
  t143_handler_ : EventHandler
  t150_handler_ : EventHandler
  t157_handler_ : EventHandler
  on_alert_callback_ : AlertLog

/-- The values the status getters return during one run of
`run_event_triggers`, one per call. -/
structure StatusReads where
  ioin_diag : Bool
  drv_status_t120 : Bool
  drv_status_t143 : Bool
  drv_status_t150 : Bool
  drv_status_t157 : Bool
  drv_status_otpw : Bool
  drv_status_ot : Bool
  deriving DecidableEq, Repr

def handle_diag_event (log : AlertLog) : AlertLog :=
  on_alert_callback_call STALLED log

def handle_index_event (log : AlertLog) : AlertLog := log

def configure_event_handlers (s : EventState) : EventState :=
  { s with
    diag_handler_ := s.diag_handler_.set_callback
      (fun log => handle_diag_event (on_alert_callback_call DIAG_TRIGGERED log))
    index_handler_ := s.index_handler_.set_callback
      (fun log => handle_index_event (on_alert_callback_call INDEX_TRIGGERED log))
    nt_handler_ := s.nt_handler_.set_callback (on_alert_callback_call TEMPERATURE_NORMAL)
    otpw_handler_ :=
      s.otpw_handler_.set_callback (on_alert_callback_call OVERTEMPERATURE_PREWARNING)
    ot_handler_ := s.ot_handler_.set_callback (on_alert_callback_call OVERTEMPERATURE)
    t120_handler_ := s.t120_handler_.set_callbacks
      (on_alert_callback_call TEMPERATURE_ABOVE_120C)
      (on_alert_callback_call TEMPERATURE_BELOW_120C)
    t143_handler_ := s.t143_handler_.set_callbacks
      (on_alert_callback_call TEMPERATURE_ABOVE_143C)
      (on_alert_callback_call TEMPERATURE_BELOW_143C)
    t150_handler_ := s.t150_handler_.set_callbacks
      (on_alert_callback_call TEMPERATURE_ABOVE_150C)
      (on_alert_callback_call TEMPERATURE_BELOW_150C)
    t157_handler_ := s.t157_handler_.set_callbacks
      (on_alert_callback_call TEMPERATURE_ABOVE_157C)
      (on_alert_callback_call TEMPERATURE_BELOW_157C) }

/-- The statement `this->diag_triggered_ = this->get_ioin_diag();`, compiled in
only without `USE_DIAG_PIN` (lines 119-121). -/
def read_diag_level (cfg : BuildFlags) (r : StatusReads) (s : EventState) : EventState :=
  if !cfg.USE_DIAG_PIN then { s with diag_triggered_ := r.ioin_diag } else s

/-- Lines 122-123: check the diag handler, then clear the flag. -/
def check_diag (s : EventState) : EventState :=
  let c := s.diag_handler_.check s.diag_triggered_ s.on_alert_callback_
  { s with diag_handler_ := c.1, on_alert_callback_ := c.2, diag_triggered_ := false }

/-- Lines 125-128: check the index handler, compiled in only with
`USE_INDEX_PIN`, then clear the flag. -/
def check_index (cfg : BuildFlags) (s : EventState) : EventState :=
  let c :=
    if cfg.USE_INDEX_PIN then s.index_handler_.check s.index_triggered_ s.on_alert_callback_
    else (s.index_handler_, s.on_alert_callback_)
  { s with index_handler_ := c.1, on_alert_callback_ := c.2, index_triggered_ := false }

/-- Line 131. -/
def check_t120 (v : Bool) (s : EventState) : EventState :=
  let c := s.t120_handler_.check v s.on_alert_callback_
  { s with t120_handler_ := c.1, on_alert_callback_ := c.2 }

/-- Line 132. -/
def check_t143 (v : Bool) (s : EventState) : EventState :=
  let c := s.t143_handler_.check v s.on_alert_callback_
  { s with t143_handler_ := c.1, on_alert_callback_ := c.2 }

/-- Line 133. -/
def check_t150 (v : Bool) (s : EventState) : EventState :=
  let c := s.t150_handler_.check v s.on_alert_callback_
  { s with t150_handler_ := c.1, on_alert_callback_ := c.2 }

/-- Line 134. -/
def check_t157 (v : Bool) (s : EventState) : EventState :=
  let c := s.t157_handler_.check v s.on_alert_callback_
  { s with t157_handler_ := c.1, on_alert_callback_ := c.2 }

/-- Line 137. -/
def check_nt (v : Bool) (s : EventState) : EventState :=
  let c := s.nt_handler_.check v s.on_alert_callback_
  { s with nt_handler_ := c.1, on_alert_callback_ := c.2 }

/-- Line 138. -/
def check_otpw (v : Bool) (s : EventState) : EventState :=
  let c := s.otpw_handler_.check v s.on_alert_callback_
  { s with otpw_handler_ := c.1, on_alert_callback_ := c.2 }

/-- Line 139. -/
def check_ot (v : Bool) (s : EventState) : EventState :=
  let c := s.ot_handler_.check v s.on_alert_callback_
  { s with ot_handler_ := c.1, on_alert_callback_ := c.2 }

/-- The method `run_event_triggers` (lines 118-140): its statements in source
order. -/
def run_event_triggers (cfg : BuildFlags) (r : StatusReads) (s : EventState) : EventState :=
  let s := read_diag_level cfg r s
  let s := check_diag s
  let s := check_index cfg s
  let s := check_t120 r.drv_status_t120 s
  let s := check_t143 r.drv_status_t143 s
  let s := check_t150 r.drv_status_t150 s
  let s := check_t157 r.drv_status_t157 s
  let drv_status_otpw := r.drv_status_otpw
  let drv_status_ot := r.drv_status_ot
  let s := check_nt (!drv_status_otpw && !drv_status_ot) s
  let s := check_otpw drv_status_otpw s
  check_ot drv_status_ot s

def loop (cfg : BuildFlags) (r : StatusReads) (s : EventState) : EventState :=
  run_event_triggers cfg r s

/-- The event members of a freshly constructed driver: every handler in its
initial state, no flag set, nothing delivered. -/
def EventState.constructed : EventState where
  diag_triggered_ := false
  index_triggered_ := false
  diag_handler_ := EventHandler.init
  index_handler_ := EventHandler.init
  nt_handler_ := EventHandler.init
  otpw_handler_ := EventHandler.init
  ot_handler_ := EventHandler.init
  t120_handler_ := EventHandler.init
  t143_handler_ := EventHandler.init
  t150_handler_ := EventHandler.init
  t157_handler_ := EventHandler.init
  on_alert_callback_ := []

/-- The event members after `setup()`, whose only effect on them is the call
of `configure_event_handlers` (line 73). -/
def EventState.afterSetup : EventState := configure_event_handlers EventState.constructed

/-- What happens in one poll cycle: whether the rising-edge interrupt of the
diag pin and of the index pin fired since the previous cycle, and what the
status getters return during the cycle. -/
structure PollInput where
  diag_isr : Bool
  index_isr : Bool
  reads : StatusReads
  deriving DecidableEq, Repr

/-- Modelled from the spec: the interrupt routine of the component header (not
under src/) sets the flag its store points to, `diag_triggered_` or
`index_triggered_`; `setup()` attaches it only for a pin the build uses (lines
56-66). -/
def pin_isr (cfg : BuildFlags) (i : PollInput) (s : EventState) : EventState :=
  { s with
    diag_triggered_ := s.diag_triggered_ || (cfg.USE_DIAG_PIN && i.diag_isr)
    index_triggered_ := s.index_triggered_ || (cfg.USE_INDEX_PIN && i.index_isr) }

/-- One poll cycle: the interrupts since the previous cycle, then `loop()`. -/
def poll_cycle (cfg : BuildFlags) (i : PollInput) (s : EventState) : EventState :=
  loop cfg i.reads (pin_isr cfg i s)

/-- A sequence of poll cycles, first to last. -/
def poll_cycles (cfg : BuildFlags) : List PollInput → EventState → EventState
  | [], s => s
  | i :: rest, s => poll_cycles cfg rest (poll_cycle cfg i s)

/-- The events delivered between two states of the same driver. -/
def delivered (before after : EventState) : List AlertEvent :=
  after.on_alert_callback_.drop before.on_alert_callback_.length

/-- The events one poll cycle delivers. -/
def cycle_events (cfg : BuildFlags) (i : PollInput) (s : EventState) : List AlertEvent :=
  delivered s (poll_cycle cfg i s)

/-- The derived temperature-normal condition of a cycle (line 137). -/
def PollInput.normal (i : PollInput) : Bool :=
  !i.reads.drv_status_otpw && !i.reads.drv_status_ot

/-- Position of an event in the order of the checks of `run_event_triggers`:
diag (DIAG_TRIGGERED, then STALLED), index, t120, t143, t150, t157,
temperature-normal, prewarning, overtemperature. -/
def AlertEvent.checkOrder : AlertEvent → Nat
  | DIAG_TRIGGERED => 0
  | STALLED => 1
  | INDEX_TRIGGERED => 2
  | TEMPERATURE_ABOVE_120C => 3
  | TEMPERATURE_BELOW_120C => 3
  | TEMPERATURE_ABOVE_143C => 4
  | TEMPERATURE_BELOW_143C => 4
  | TEMPERATURE_ABOVE_150C => 5
  | TEMPERATURE_BELOW_150C => 5
  | TEMPERATURE_ABOVE_157C => 6
  | TEMPERATURE_BELOW_157C => 6
  | TEMPERATURE_NORMAL => 7
  | OVERTEMPERATURE_PREWARNING => 8
  | OVERTEMPERATURE => 9

/-- Position of an event in the order the specification lists: diag, index,
temperature-normal, prewarning, overtemperature, t120, t143, t150, t157. -/
def AlertEvent.specOrder : AlertEvent → Nat
  | DIAG_TRIGGERED => 0
  | STALLED => 1
  | INDEX_TRIGGERED => 2
  | TEMPERATURE_NORMAL => 3
  | OVERTEMPERATURE_PREWARNING => 4
  | OVERTEMPERATURE => 5
  | TEMPERATURE_ABOVE_120C => 6
  | TEMPERATURE_BELOW_120C => 6
  | TEMPERATURE_ABOVE_143C => 7
  | TEMPERATURE_BELOW_143C => 7
  | TEMPERATURE_ABOVE_150C => 8
  | TEMPERATURE_BELOW_150C => 8
  | TEMPERATURE_ABOVE_157C => 9
  | TEMPERATURE_BELOW_157C => 9

/-- A list of events runs in the order of the checks, no position twice. -/
def InCheckOrder (l : List AlertEvent) : Prop :=
  l.Pairwise (fun a b => a.checkOrder < b.checkOrder)

/-- A list of events runs in the order the specification lists. -/
def InSpecOrder (l : List AlertEvent) : Prop :=
  l.Pairwise (fun a b => a.specOrder < b.specOrder)

instance (l : List AlertEvent) : Decidable (InCheckOrder l) := by
  unfold InCheckOrder; infer_instance

instance (l : List AlertEvent) : Decidable (InSpecOrder l) := by
  unfold InSpecOrder; infer_instance

/-- The derived temperature-normal condition of the cycle before the next one:
that of the last cycle run, `false` (the handler's initial state) when none
has run. -/
def previousNormal (pre : List PollInput) : Bool :=
  (pre.getLast?.map PollInput.normal).getD false

/-- The events that come from the diag handler. -/
def AlertEvent.isDiag (e : AlertEvent) : Bool :=
  e = DIAG_TRIGGERED || e = STALLED

/-! ## The event engine as a transition system on plain data

After `setup()` the callbacks of the nine handlers never change; what changes
is the previous value of each handler, the two interrupt flags and the list of
delivered events. `Snapshot` is that data, `Snapshot.toState` the driver state
it stands for. -/

/-- The events a handler delivers on a check: `rise` on a change to `true`,
`fall` on a change to `false`, nothing when the value repeats. -/
def edge (prev new_value : Bool) (rise fall : List AlertEvent) : List AlertEvent :=
  if new_value ≠ prev ∧ new_value = true then rise
  else if new_value ≠ prev ∧ new_value = false then fall
  else []

/-- The changing part of the event members after `setup()`. -/
structure Snapshot where
  diag_triggered : Bool
  index_triggered : Bool
  diag : Bool
  index : Bool
  nt : Bool
  otpw : Bool
  ot : Bool
  t120 : Bool
  t143 : Bool
  t150 : Bool
  t157 : Bool
  log : AlertLog

/-- The driver state of a snapshot: the handlers hold the snapshot's previous
values and the callbacks `configure_event_handlers` registers. -/
def Snapshot.toState (x : Snapshot) : EventState :=
  configure_event_handlers
    { diag_triggered_ := x.diag_triggered
      index_triggered_ := x.index_triggered
      diag_handler_ := ⟨x.diag, none, none⟩
      index_handler_ := ⟨x.index, none, none⟩
      nt_handler_ := ⟨x.nt, none, none⟩
      otpw_handler_ := ⟨x.otpw, none, none⟩
      ot_handler_ := ⟨x.ot, none, none⟩
      t120_handler_ := ⟨x.t120, none, none⟩
      t143_handler_ := ⟨x.t143, none, none⟩
      t150_handler_ := ⟨x.t150, none, none⟩
      t157_handler_ := ⟨x.t157, none, none⟩
      on_alert_callback_ := x.log }

/-- The snapshot of a freshly set up driver. -/
def Snapshot.initial : Snapshot :=
  ⟨false, false, false, false, false, false, false, false, false, false, false, []⟩

/-- The value the diag handler is checked with in a cycle. -/
def Snapshot.diagValue (cfg : BuildFlags) (r : StatusReads) (x : Snapshot) : Bool :=
  if !cfg.USE_DIAG_PIN then r.ioin_diag else x.diag_triggered

/-- The events of one run of `run_event_triggers`, handler by handler in the
order of the checks. -/
def Snapshot.events (cfg : BuildFlags) (r : StatusReads) (x : Snapshot) : List AlertEvent :=
  edge x.diag (x.diagValue cfg r) [DIAG_TRIGGERED, STALLED] [] ++
  ((if cfg.USE_INDEX_PIN then edge x.index x.index_triggered [INDEX_TRIGGERED] [] else []) ++
  (edge x.t120 r.drv_status_t120 [TEMPERATURE_ABOVE_120C] [TEMPERATURE_BELOW_120C] ++
  (edge x.t143 r.drv_status_t143 [TEMPERATURE_ABOVE_143C] [TEMPERATURE_BELOW_143C] ++
  (edge x.t150 r.drv_status_t150 [TEMPERATURE_ABOVE_150C] [TEMPERATURE_BELOW_150C] ++
  (edge x.t157 r.drv_status_t157 [TEMPERATURE_ABOVE_157C] [TEMPERATURE_BELOW_157C] ++
  (edge x.nt (!r.drv_status_otpw && !r.drv_status_ot) [TEMPERATURE_NORMAL] [] ++
  (edge x.otpw r.drv_status_otpw [OVERTEMPERATURE_PREWARNING] [] ++
  edge x.ot r.drv_status_ot [OVERTEMPERATURE] [])))))))

/-- One run of `run_event_triggers` on a snapshot. -/
def Snapshot.run (cfg : BuildFlags) (r : StatusReads) (x : Snapshot) : Snapshot where
  diag_triggered := false
  index_triggered := false
  diag := x.diagValue cfg r
  index := if cfg.USE_INDEX_PIN then x.index_triggered else x.index
  nt := !r.drv_status_otpw && !r.drv_status_ot
  otpw := r.drv_status_otpw
  ot := r.drv_status_ot
  t120 := r.drv_status_t120
  t143 := r.drv_status_t143
  t150 := r.drv_status_t150
  t157 := r.drv_status_t157
  log := x.log ++ x.events cfg r

/-- The interrupts of a cycle on a snapshot. -/
def Snapshot.isr (cfg : BuildFlags) (i : PollInput) (x : Snapshot) : Snapshot :=
  { x with
    diag_triggered := x.diag_triggered || (cfg.USE_DIAG_PIN && i.diag_isr)
    index_triggered := x.index_triggered || (cfg.USE_INDEX_PIN && i.index_isr) }

/-- One poll cycle on a snapshot. -/
def Snapshot.poll (cfg : BuildFlags) (i : PollInput) (x : Snapshot) : Snapshot :=
  (x.isr cfg i).run cfg i.reads

/-- A sequence of poll cycles on a snapshot. -/
def Snapshot.polls (cfg : BuildFlags) : List PollInput → Snapshot → Snapshot
  | [], x => x
  | i :: rest, x => Snapshot.polls cfg rest (x.poll cfg i)

/-! # Theorems -/

/-! ## Bit-field lemmas -/

theorem testBit_mask (w o i : Nat) :
    ((2 ^ w - 1) <<< o).testBit i = (decide (o ≤ i) && decide (i - o < w)) := by
  rw [Nat.testBit_shiftLeft, Nat.testBit_two_pow_sub_one]

theorem testBit_extract (r w o i : Nat) :
    ((r &&& ((2 ^ w - 1) <<< o)) >>> o).testBit i = (decide (i < w) && r.testBit (o + i)) := by
  rw [Nat.testBit_shiftRight, Nat.testBit_and, testBit_mask]
  by_cases h : i < w <;> simp [h]

theorem testBit_update (r v w o i : Nat) (h : o + w ≤ 32) :
    (((r &&& (0xFFFFFFFF ^^^ ((2 ^ w - 1) <<< o))) ||| ((v <<< o) &&& ((2 ^ w - 1) <<< o)))
        % 2 ^ 32).testBit i
      = (if o ≤ i ∧ i < o + w then v.testBit (i - o) else (decide (i < 32) && r.testBit i)) := by
  have h32 : (0xFFFFFFFF : Nat) = 2 ^ 32 - 1 := by norm_num
  rw [Nat.testBit_mod_two_pow, Nat.testBit_or, Nat.testBit_and, Nat.testBit_and, Nat.testBit_xor,
    testBit_mask, h32, Nat.testBit_two_pow_sub_one, Nat.testBit_shiftLeft]
  by_cases h1 : o ≤ i
  · by_cases h2 : i < o + w
    · have h3 : i < 32 := by omega
      have h4 : i - o < w := by omega
      simp [h1, h2, h3, h4]
    · have h4 : ¬ (i - o < w) := by omega
      by_cases h3 : i < 32 <;> simp [h1, h2, h3, h4]
  · by_cases h3 : i < 32 <;> simp [h1, h3]

/-- Extracting the bits that were just replaced gives the low bits of the
value written. -/
theorem extract_update_same (r v w o : Nat) (h : o + w ≤ 32) :
    ((((r &&& (0xFFFFFFFF ^^^ ((2 ^ w - 1) <<< o))) ||| ((v <<< o) &&& ((2 ^ w - 1) <<< o)))
        % 2 ^ 32) &&& ((2 ^ w - 1) <<< o)) >>> o = v % 2 ^ w := by
  apply Nat.eq_of_testBit_eq
  intro i
  rw [testBit_extract, testBit_update _ _ _ _ _ h, Nat.testBit_mod_two_pow]
  by_cases hi : i < w
  · have : o ≤ o + i ∧ o + i < o + w := by omega
    simp [hi, this]
  · simp [hi]

/-- Replacing one bit range leaves every disjoint range inside the word as it
was. -/
theorem extract_update_disjoint (r v w o w2 o2 : Nat) (h : o + w ≤ 32) (h2 : o2 + w2 ≤ 32)
    (hd : o + w ≤ o2 ∨ o2 + w2 ≤ o) :
    ((((r &&& (0xFFFFFFFF ^^^ ((2 ^ w - 1) <<< o))) ||| ((v <<< o) &&& ((2 ^ w - 1) <<< o)))
        % 2 ^ 32) &&& ((2 ^ w2 - 1) <<< o2)) >>> o2 = (r &&& ((2 ^ w2 - 1) <<< o2)) >>> o2 := by
  apply Nat.eq_of_testBit_eq
  intro i
  rw [testBit_extract, testBit_update _ _ _ _ _ h, testBit_extract]
  by_cases hi : i < w2
  · have h3 : ¬ (o ≤ o2 + i ∧ o2 + i < o + w) := by omega
    have h4 : o2 + i < 32 := by omega
    simp [hi, h3, h4]
  · simp [hi]

theorem extract_whole (v : Nat) : ((v % 2 ^ 32) &&& ((2 ^ 32 - 1) <<< 0)) >>> 0 = v % 2 ^ 32 := by
  apply Nat.eq_of_testBit_eq
  intro i
  rw [testBit_extract, Nat.testBit_mod_two_pow, Nat.testBit_mod_two_pow]
  by_cases h : i < 32 <;> simp [h]

/-- Reading an unsigned field right after writing it returns the value written,
reduced to the width of the field. -/
theorem read_field_write_field (f : FieldSpec) (w : Nat) (hf : f.unsignedOfWidth w) (v : Nat)
    (st : Regs) : read_field f (write_field f v st) = ((v % 2 ^ w : Nat) : Int) := by
  obtain ⟨hs, hw, hin⟩ := hf
  subst hw
  unfold read_field write_field
  by_cases hc : f.offset = 0 ∧ f.width = 32
  · obtain ⟨ho, hw⟩ := hc
    simp only [ho, hw, hs, and_self, if_true, read_register, write_register, FieldSpec.mask]
    rw [extract_whole]
    simp
  · simp only [hc, if_false, read_register, write_register, FieldSpec.mask, hs, if_true]
    rw [extract_update_same _ _ _ _ hin]
    simp

/-- Writing a field leaves every field on other bits as it was. -/
theorem read_field_write_field_of_disjoint (f g : FieldSpec) (hf : f.offset + f.width ≤ 32)
    (hg : g.offset + g.width ≤ 32) (hd : f.disjoint g) (v : Nat) (st : Regs) :
    read_field g (write_field f v st) = read_field g st := by
  have key : (read_register (write_field f v st) g.reg &&& g.mask) >>> g.offset
      = (read_register st g.reg &&& g.mask) >>> g.offset := by
    unfold write_field
    by_cases hr : g.reg = f.reg
    · rcases hd with hd | hd
      · exact absurd hr.symm hd
      · by_cases hc : f.offset = 0 ∧ f.width = 32
        · have hw : g.width = 0 := by omega
          simp only [hc, and_self, if_true, read_register, write_register, FieldSpec.mask, hw]
          simp
        · simp only [hc, if_false, read_register, write_register, FieldSpec.mask, hr, if_true]
          exact extract_update_disjoint _ _ _ _ _ _ hf hg hd
    · by_cases hc : f.offset = 0 ∧ f.width = 32 <;>
        simp only [hc, and_self, if_true, if_false, read_register, write_register, hr]
  unfold read_field
  simp only [key]

theorem to_uint8_natCast (n : Nat) (h : n < 256) : to_uint8 (n : Int) = n := by
  unfold to_uint8
  omega

theorem to_bool_natCast (n : Nat) : to_bool (n : Int) = decide (n ≠ 0) := by
  unfold to_bool
  simp

/-- A floating value in `(-1, 256)` converts to its integer part. -/
theorem float_to_uint8_eq (q : ℚ) (n : Nat) (h0 : (n : ℚ) - 1 < q ∨ (n : ℚ) ≤ q)
    (hn : n = 0 ∨ (n : ℚ) ≤ q) (h1 : q < n + 1) (h2 : n < 256) : float_to_uint8 q = n := by
  unfold float_to_uint8
  have hden : (0 : Int) < q.den := by exact_mod_cast q.den_pos
  by_cases hq : 0 ≤ q
  · have hnum : 0 ≤ q.num := Rat.num_nonneg.mpr hq
    rw [Int.tdiv_eq_ediv hnum hden.le, ← Rat.floor_def]
    have hfl : ⌊q⌋ = (n : Int) := by
      rw [Int.floor_eq_iff]
      refine ⟨?_, by exact_mod_cast h1⟩
      rcases hn with hn | hn
      · subst hn; simpa using hq
      · exact_mod_cast hn
    rw [hfl]
    exact to_uint8_natCast n h2
  · have hq' : q < 0 := lt_of_not_ge hq
    have hn0 : n = 0 := by
      rcases hn with hn | hn
      · exact hn
      · have : (n : ℚ) < 0 := lt_of_le_of_lt hn hq'
        have : (0 : ℚ) ≤ n := Nat.cast_nonneg n
        linarith
    subst hn0
    have hlow : -1 < q := by
      rcases h0 with h | h
      · simpa using h
      · have : (0 : ℚ) ≤ q := by simpa using h
        linarith
    have hnum : 0 ≤ (-q).num := Rat.num_nonneg.mpr (by linarith)
    have hfl : ⌊-q⌋ = 0 := by
      rw [Int.floor_eq_iff]
      constructor <;> [(simp; linarith); (simp; linarith)]
    have : q.num.tdiv q.den = 0 := by
      have h3 : (-q).num.tdiv ((-q).den : Int) = 0 := by
        rw [Int.tdiv_eq_ediv hnum (by exact_mod_cast (Nat.zero_le _)), ← Rat.floor_def, hfl]
      rw [Rat.num_neg_eq_neg_num, Rat.den_neg_eq_den, Int.neg_tdiv] at h3
      omega
    rw [this]
    rfl

/-- A floating value in `(-1, 256)` converts to its floor, 0 when negative. -/
theorem float_to_uint8_floor (q : ℚ) (h : -1 < q) (h' : q < 256) :
    float_to_uint8 q = ⌊q⌋.toNat := by
  by_cases hq : 0 ≤ q
  · have hfl : 0 ≤ ⌊q⌋ := Int.floor_nonneg.mpr hq
    have hcast : ((⌊q⌋.toNat : ℕ) : ℤ) = ⌊q⌋ := Int.toNat_of_nonneg hfl
    have hcastq : ((⌊q⌋.toNat : ℕ) : ℚ) = ((⌊q⌋ : ℤ) : ℚ) := by
      rw [← Int.cast_natCast, hcast]
    have hle : ((⌊q⌋.toNat : ℕ) : ℚ) ≤ q := by rw [hcastq]; exact Int.floor_le q
    have hlt : q < ((⌊q⌋.toNat : ℕ) : ℚ) + 1 := by rw [hcastq]; exact Int.lt_floor_add_one q
    have hn : ⌊q⌋.toNat < 256 := by
      have : ((⌊q⌋.toNat : ℕ) : ℚ) < 256 := lt_of_le_of_lt hle h'
      exact_mod_cast this
    exact float_to_uint8_eq q _ (Or.inr hle) (Or.inr hle) hlt hn
  · have hq' : q < 0 := lt_of_not_ge hq
    have hfl : ⌊q⌋ = -1 := by
      rw [Int.floor_eq_iff]
      constructor
      · simpa using h.le
      · simpa using hq'
    rw [hfl]
    exact float_to_uint8_eq q 0 (Or.inl (by simpa using h)) (Or.inl rfl)
      (by simpa using hq'.trans zero_lt_one) (by norm_num)

/-! ## C1: microsteps -/

/-- Supporting fact for C1: for every resolution below 256 the round trip
holds, whatever the register held before. -/
theorem get_microsteps_set_microsteps_below_256 (T : FieldTable) (hT : T.WF) (d : Driver)
    (n : Nat) (hn : n ∈ [1, 2, 4, 8, 16, 32, 64, 128]) :
    get_microsteps T (set_microsteps T n d) = n := by
  have hm := hT.1
  have key : ∀ m : Nat, m < 16 → get_chopconf_mres T (set_chopconf_mres T m d) = m := by
    intro m hm'
    unfold get_chopconf_mres set_chopconf_mres
    simp only
    rw [read_field_write_field _ 4 hm, Nat.mod_eq_of_lt (by omega : m < 2 ^ 4)]
    exact to_uint8_natCast m (by omega)
  simp only [List.mem_cons, List.mem_singleton, List.not_mem_nil, or_false] at hn
  rcases hn with h | h | h | h | h | h | h | h <;> subst h <;>
    simp [get_microsteps, set_microsteps, set_microsteps_loop, key]

/-- C1 (code defect): `set_microsteps(256)` never writes the MRES field, because
the loop stops before `mres = 0`; after `set_microsteps(16)` the call
`set_microsteps(256)` leaves `get_microsteps()` at 16. -/
theorem set_microsteps_256_not_written :
    (∀ (T : FieldTable) (d : Driver), set_microsteps T 256 d = d) ∧
    get_microsteps datasheetFields
      (set_microsteps datasheetFields 256 (set_microsteps datasheetFields 16 driverAfterSetup))
      = 16 := by
  refine ⟨?_, by decide⟩
  intro T d
  simp [set_microsteps, set_microsteps_loop]

/-! ## C2: run-current and hold-current fields -/

/-- C2 (code defect): `set_ihold_irun_irun` writes the IHOLD field and
`set_ihold_irun_ihold` writes the IRUN field. With a 0.11 ohm resistor,
`set_rms_current(1.04)` and a hold fraction of 0.5 the scale 17 ends in IHOLD
and the hold value 8 in IRUN. -/
theorem set_rms_current_fields_swapped :
    (∀ (T : FieldTable) (c : Nat) (d : Driver),
      (set_ihold_irun_irun T c d).regs = write_field T.IHOLD c d.regs ∧
      (set_ihold_irun_ihold T c d).regs = write_field T.IRUN c d.regs) ∧
    read_field datasheetFields.IHOLD
      (set_rms_current datasheetFields 1.04
        { driverAfterSetup with rms_current_hold_scale_ := 0.5 }).regs = 17 ∧
    read_field datasheetFields.IRUN
      (set_rms_current datasheetFields 1.04
        { driverAfterSetup with rms_current_hold_scale_ := 0.5 }).regs = 8 := by
  refine ⟨fun T c d => ⟨rfl, rfl⟩, by decide!, by decide!⟩

/-! ## C7: hold delay in milliseconds -/

/-- Supporting fact for C7: while the raw factor stays below 256 the value
written is the raw factor clamped to 15. -/
theorem ihold_delay_ms_below_256 (T : FieldTable) (hT : T.WF) (d : Driver) (delay_in_ms : Nat)
    (h : ((delay_in_ms : ℚ) / 262144.0) * ((d.oscillator_freq_ : ℚ) / 1000.0) < 256) :
    get_ihold_irun_ihold_delay T (ihold_irun_ihold_delay_ms T delay_in_ms d)
      = min 15 ⌊((delay_in_ms : ℚ) / 262144.0) * ((d.oscillator_freq_ : ℚ) / 1000.0)⌋.toNat := by
  obtain ⟨_, _, _, _, hD, _⟩ := hT
  have hnn : (0 : ℚ) ≤ ((delay_in_ms : ℚ) / 262144.0) * ((d.oscillator_freq_ : ℚ) / 1000.0) := by
    positivity
  have hraw := float_to_uint8_floor _ (lt_of_lt_of_le (by norm_num) hnn) h
  unfold get_ihold_irun_ihold_delay ihold_irun_ihold_delay_ms set_ihold_irun_ihold_delay
  simp only [hraw]
  rw [read_field_write_field _ 4 hD]
  split_ifs with h15
  · rw [Nat.mod_eq_of_lt (by norm_num), to_uint8_natCast _ (by norm_num)]
    omega
  · rw [Nat.mod_eq_of_lt (by omega), to_uint8_natCast _ (by omega)]
    omega

/-- C7 (code defect): at 12 MHz a delay of 5593 ms has the raw factor 256; the
`uint8_t` parameter of `set_ihold_irun_ihold_delay` keeps its low byte 0
before the clamp is reached, so 0 is written where the clamp would give 15. -/
theorem ihold_delay_ms_5593_writes_zero :
    ⌊(5593 : ℚ) / 1000 * 12000000 / 262144⌋ = 256 ∧
    read_field datasheetFields.IHOLDDELAY
      (ihold_irun_ihold_delay_ms datasheetFields 5593 driverAfterSetup).regs = 0 := by
  refine ⟨by decide!, by decide!⟩

/-! ## C8: millisecond round trips at 12 MHz -/

/-- At 12 MHz the raw factor the setters compute is `ms * 12000 / 262144`
(integer division) as long as it fits eight bits. -/
theorem delay_factor_12MHz (ms : Nat) (h : ms * 12000 / 262144 < 256) :
    float_to_uint8 (((ms : ℚ) / 262144.0) * (((12000000 : Nat) : ℚ) / 1000.0))
      = ms * 12000 / 262144 := by
  have hq : ((ms : ℚ) / 262144.0) * (((12000000 : Nat) : ℚ) / 1000.0)
      = ((ms * 12000 : Nat) : ℚ) / ((262144 : Nat) : ℚ) := by
    push_cast
    norm_num
    ring
  rw [hq]
  have hfl := Nat.floor_div_eq_div (α := ℚ) (ms * 12000) 262144
  have hnn : (0 : ℚ) ≤ ((ms * 12000 : Nat) : ℚ) / ((262144 : Nat) : ℚ) := by positivity
  apply float_to_uint8_eq _ _ _ _ _ h
  · right
    rw [← hfl]
    exact Nat.floor_le hnn
  · right
    rw [← hfl]
    exact Nat.floor_le hnn
  · have := Nat.lt_floor_add_one (((ms * 12000 : Nat) : ℚ) / ((262144 : Nat) : ℚ))
    rw [hfl] at this
    exact_mod_cast this

/-- C8: at 12 MHz, for every delay whose raw factor fits the field (at most 255
for TPOWERDOWN, at most 15 for IHOLDDELAY), writing the delay in milliseconds
and reading it back returns `ms' ≤ ms` with `ms - ms' < 262144/12000 + 1`. -/
theorem delay_ms_round_trip_12MHz (T : FieldTable) (hT : T.WF) (d : Driver)
    (hf : d.oscillator_freq_ = 12000000) (ms : Nat) :
    (ms * 12000 / 262144 ≤ 255 →
      tpowerdown_ms_read T (tpowerdown_ms T ms d) ≤ ms ∧
      ((ms : ℚ) - (tpowerdown_ms_read T (tpowerdown_ms T ms d) : ℚ) < 262144 / 12000 + 1)) ∧
    (ms * 12000 / 262144 ≤ 15 →
      ihold_irun_ihold_delay_ms_read T (ihold_irun_ihold_delay_ms T ms d) ≤ ms ∧
      ((ms : ℚ) - (ihold_irun_ihold_delay_ms_read T (ihold_irun_ihold_delay_ms T ms d) : ℚ)
        < 262144 / 12000 + 1)) := by
  obtain ⟨_, _, _, _, hD, hP, _⟩ := hT
  have arith : ∀ r : Nat, r = ms * 12000 / 262144 → r ≤ 255 →
      (r * 262144 / (12000000 / 1000)) % 2 ^ 32 ≤ ms ∧
      ((ms : ℚ) - (((r * 262144 / (12000000 / 1000)) % 2 ^ 32 : Nat) : ℚ) < 262144 / 12000 + 1) := by
    intro r hr hr'
    have h1 : (r * 262144 / (12000000 / 1000)) % 2 ^ 32 = r * 262144 / 12000 := by
      norm_num
      omega
    rw [h1]
    have h2 : r * 262144 / 12000 ≤ ms := by omega
    refine ⟨h2, ?_⟩
    have h5 : ms * 12000 < (r * 262144 / 12000) * 12000 + 12000 + 262144 := by omega
    have h6 : ((ms : ℚ)) * 12000 < ((r * 262144 / 12000 : Nat) : ℚ) * 12000 + 12000 + 262144 := by
      exact_mod_cast h5
    linarith
  constructor
  · intro h
    have hraw := delay_factor_12MHz ms (by omega)
    have hback : get_tpowerdown T (tpowerdown_ms T ms d) = ms * 12000 / 262144 := by
      unfold get_tpowerdown tpowerdown_ms set_tpowerdown
      simp only [hf, hraw]
      rw [read_field_write_field _ 8 hP, Nat.mod_eq_of_lt (by omega)]
      exact to_uint8_natCast _ (by omega)
    have hfreq : (tpowerdown_ms T ms d).oscillator_freq_ = 12000000 := hf
    unfold tpowerdown_ms_read
    rw [hback, hfreq]
    exact arith _ rfl h
  · intro h
    have hraw := delay_factor_12MHz ms (by omega)
    have hback : get_ihold_irun_ihold_delay T (ihold_irun_ihold_delay_ms T ms d)
        = ms * 12000 / 262144 := by
      unfold get_ihold_irun_ihold_delay ihold_irun_ihold_delay_ms set_ihold_irun_ihold_delay
      simp only [hf, hraw]
      rw [if_neg (by omega), read_field_write_field _ 4 hD, Nat.mod_eq_of_lt (by omega)]
      exact to_uint8_natCast _ (by omega)
    have hfreq : (ihold_irun_ihold_delay_ms T ms d).oscillator_freq_ = 12000000 := hf
    unfold ihold_irun_ihold_delay_ms_read
    rw [hback, hfreq]
    exact arith _ rfl (by omega)

/-- Witness for C8: 300 ms at 12 MHz (raw factor 13) reads back as 283 ms on
both paths. -/
theorem delay_ms_round_trip_12MHz_witness :
    300 * 12000 / 262144 ≤ 15 ∧
    tpowerdown_ms_read datasheetFields (tpowerdown_ms datasheetFields 300 driverAfterSetup) = 283 ∧
    (tpowerdown_ms_read datasheetFields (tpowerdown_ms datasheetFields 300 driverAfterSetup) ≤ 300 ∧
      ((300 : Nat) : ℚ) - (tpowerdown_ms_read datasheetFields
        (tpowerdown_ms datasheetFields 300 driverAfterSetup) : ℚ) < 262144 / 12000 + 1) ∧
    (ihold_irun_ihold_delay_ms_read datasheetFields
        (ihold_irun_ihold_delay_ms datasheetFields 300 driverAfterSetup) ≤ 300 ∧
      ((300 : Nat) : ℚ) - (ihold_irun_ihold_delay_ms_read datasheetFields
        (ihold_irun_ihold_delay_ms datasheetFields 300 driverAfterSetup) : ℚ)
        < 262144 / 12000 + 1) :=
  ⟨by decide, by decide!,
    (delay_ms_round_trip_12MHz datasheetFields (by decide) driverAfterSetup rfl 300).1 (by decide),
    (delay_ms_round_trip_12MHz datasheetFields (by decide) driverAfterSetup rfl 300).2 (by decide)⟩

/-! ## The event engine: refinement to the snapshot system -/

theorem read_diag_level_toState (cfg : BuildFlags) (r : StatusReads) (x : Snapshot) :
    read_diag_level cfg r x.toState
      = ({ x with diag_triggered := x.diagValue cfg r } : Snapshot).toState := by
  unfold read_diag_level Snapshot.diagValue
  cases cfg.USE_DIAG_PIN <;> rfl

theorem check_diag_toState (x : Snapshot) :
    check_diag x.toState
      = ({ x with diag := x.diag_triggered, diag_triggered := false,
                  log := x.log ++ edge x.diag x.diag_triggered [DIAG_TRIGGERED, STALLED] [] }
          : Snapshot).toState := by
  obtain ⟨dt, it, d, ix, nt, otpw, ot, t120, t143, t150, t157, log⟩ := x
  cases d <;> cases dt <;>
    simp [check_diag, Snapshot.toState, configure_event_handlers, EventHandler.check,
      EventHandler.set_callback, EventHandler.set_callbacks, edge, handle_diag_event,
      on_alert_callback_call]

theorem check_index_toState (cfg : BuildFlags) (x : Snapshot) :
    check_index cfg x.toState
      = ({ x with index := if cfg.USE_INDEX_PIN then x.index_triggered else x.index,
                  index_triggered := false,
                  log := x.log ++ (if cfg.USE_INDEX_PIN then
                    edge x.index x.index_triggered [INDEX_TRIGGERED] [] else []) }
          : Snapshot).toState := by
  obtain ⟨dt, it, d, ix, nt, otpw, ot, t120, t143, t150, t157, log⟩ := x
  obtain ⟨usd, usi⟩ := cfg
  cases usi <;> cases ix <;> cases it <;>
    simp [check_index, Snapshot.toState, configure_event_handlers, EventHandler.check,
      EventHandler.set_callback, EventHandler.set_callbacks, edge, handle_index_event,
      on_alert_callback_call]

theorem check_t120_toState (v : Bool) (x : Snapshot) :
    check_t120 v x.toState
      = ({ x with t120 := v, log := x.log ++ edge x.t120 v [TEMPERATURE_ABOVE_120C] [TEMPERATURE_BELOW_120C] }
          : Snapshot).toState := by
  obtain ⟨dt, it, d, ix, nt, otpw, ot, t120, t143, t150, t157, log⟩ := x
  cases t120 <;> cases v <;>
    simp [check_t120, Snapshot.toState, configure_event_handlers, EventHandler.check,
      EventHandler.set_callback, EventHandler.set_callbacks, edge, on_alert_callback_call]

theorem check_t143_toState (v : Bool) (x : Snapshot) :
    check_t143 v x.toState
      = ({ x with t143 := v, log := x.log ++ edge x.t143 v [TEMPERATURE_ABOVE_143C] [TEMPERATURE_BELOW_143C] }
          : Snapshot).toState := by
  obtain ⟨dt, it, d, ix, nt, otpw, ot, t120, t143, t150, t157, log⟩ := x
  cases t143 <;> cases v <;>
    simp [check_t143, Snapshot.toState, configure_event_handlers, EventHandler.check,
      EventHandler.set_callback, EventHandler.set_callbacks, edge, on_alert_callback_call]

theorem check_t150_toState (v : Bool) (x : Snapshot) :
    check_t150 v x.toState
      = ({ x with t150 := v, log := x.log ++ edge x.t150 v [TEMPERATURE_ABOVE_150C] [TEMPERATURE_BELOW_150C] }
          : Snapshot).toState := by
  obtain ⟨dt, it, d, ix, nt, otpw, ot, t120, t143, t150, t157, log⟩ := x
  cases t150 <;> cases v <;>
    simp [check_t150, Snapshot.toState, configure_event_handlers, EventHandler.check,
      EventHandler.set_callback, EventHandler.set_callbacks, edge, on_alert_callback_call]

theorem check_t157_toState (v : Bool) (x : Snapshot) :
    check_t157 v x.toState
      = ({ x with t157 := v, log := x.log ++ edge x.t157 v [TEMPERATURE_ABOVE_157C] [TEMPERATURE_BELOW_157C] }
          : Snapshot).toState := by
  obtain ⟨dt, it, d, ix, nt, otpw, ot, t120, t143, t150, t157, log⟩ := x
  cases t157 <;> cases v <;>
    simp [check_t157, Snapshot.toState, configure_event_handlers, EventHandler.check,
      EventHandler.set_callback, EventHandler.set_callbacks, edge, on_alert_callback_call]

theorem check_nt_toState (v : Bool) (x : Snapshot) :
    check_nt v x.toState
      = ({ x with nt := v, log := x.log ++ edge x.nt v [TEMPERATURE_NORMAL] [] }
          : Snapshot).toState := by
  obtain ⟨dt, it, d, ix, nt, otpw, ot, t120, t143, t150, t157, log⟩ := x
  cases nt <;> cases v <;>
    simp [check_nt, Snapshot.toState, configure_event_handlers, EventHandler.check,
      EventHandler.set_callback, EventHandler.set_callbacks, edge, on_alert_callback_call]

theorem check_otpw_toState (v : Bool) (x : Snapshot) :
    check_otpw v x.toState
      = ({ x with otpw := v, log := x.log ++ edge x.otpw v [OVERTEMPERATURE_PREWARNING] [] }
          : Snapshot).toState := by
  obtain ⟨dt, it, d, ix, nt, otpw, ot, t120, t143, t150, t157, log⟩ := x
  cases otpw <;> cases v <;>
    simp [check_otpw, Snapshot.toState, configure_event_handlers, EventHandler.check,
      EventHandler.set_callback, EventHandler.set_callbacks, edge, on_alert_callback_call]

theorem check_ot_toState (v : Bool) (x : Snapshot) :
    check_ot v x.toState
      = ({ x with ot := v, log := x.log ++ edge x.ot v [OVERTEMPERATURE] [] }
          : Snapshot).toState := by
  obtain ⟨dt, it, d, ix, nt, otpw, ot, t120, t143, t150, t157, log⟩ := x
  cases ot <;> cases v <;>
    simp [check_ot, Snapshot.toState, configure_event_handlers, EventHandler.check,
      EventHandler.set_callback, EventHandler.set_callbacks, edge, on_alert_callback_call]

/-- One run of `run_event_triggers` on the state of a snapshot is the run of the
snapshot. -/
theorem run_event_triggers_toState (cfg : BuildFlags) (r : StatusReads) (x : Snapshot) :
    run_event_triggers cfg r x.toState = (x.run cfg r).toState := by
  unfold run_event_triggers
  simp only [read_diag_level_toState, check_diag_toState, check_index_toState,
    check_t120_toState, check_t143_toState, check_t150_toState, check_t157_toState,
    check_nt_toState, check_otpw_toState, check_ot_toState]
  congr 1
  simp [Snapshot.run, Snapshot.events, List.append_assoc]

theorem pin_isr_toState (cfg : BuildFlags) (i : PollInput) (x : Snapshot) :
    pin_isr cfg i x.toState = (x.isr cfg i).toState := rfl

theorem poll_cycle_toState (cfg : BuildFlags) (i : PollInput) (x : Snapshot) :
    poll_cycle cfg i x.toState = (x.poll cfg i).toState := by
  unfold poll_cycle loop Snapshot.poll
  rw [pin_isr_toState, run_event_triggers_toState]

theorem poll_cycles_toState (cfg : BuildFlags) (ins : List PollInput) (x : Snapshot) :
    poll_cycles cfg ins x.toState = (Snapshot.polls cfg ins x).toState := by
  induction ins generalizing x with
  | nil => rfl
  | cons i rest ih =>
    simp only [poll_cycles, Snapshot.polls]
    rw [poll_cycle_toState, ih]

theorem afterSetup_eq : EventState.afterSetup = Snapshot.initial.toState := rfl

theorem toState_log (x : Snapshot) : x.toState.on_alert_callback_ = x.log := rfl

/-- The events of a cycle are those of the snapshot run. -/
theorem cycle_events_toState (cfg : BuildFlags) (i : PollInput) (x : Snapshot) :
    cycle_events cfg i x.toState = (x.isr cfg i).events cfg i.reads := by
  unfold cycle_events delivered
  rw [poll_cycle_toState, toState_log, toState_log]
  simp [Snapshot.poll, Snapshot.run, Snapshot.isr]

/-! ## C3: delivery order within a poll cycle -/

theorem edge_cases (p v : Bool) (R F : List AlertEvent) :
    edge p v R F = R ∨ edge p v R F = F ∨ edge p v R F = [] := by
  cases p <;> cases v <;> simp [edge]

/-- A segment whose positions lie in `[k, k')` in front of a tail that starts at
`k'` or later. -/
theorem inCheckOrder_append (seg tail : List AlertEvent) (k k' : Nat)
    (hseg : InCheckOrder seg) (hlo : ∀ e ∈ seg, k ≤ e.checkOrder)
    (hhi : ∀ e ∈ seg, e.checkOrder < k') (hk : k ≤ k')
    (htail : InCheckOrder tail ∧ ∀ e ∈ tail, k' ≤ e.checkOrder) :
    InCheckOrder (seg ++ tail) ∧ ∀ e ∈ seg ++ tail, k ≤ e.checkOrder := by
  constructor
  · unfold InCheckOrder
    rw [List.pairwise_append]
    refine ⟨hseg, htail.1, ?_⟩
    intro a ha b hb
    exact lt_of_lt_of_le (hhi a ha) (htail.2 b hb)
  · intro e he
    rcases List.mem_append.mp he with h | h
    · exact hlo e h
    · exact le_trans hk (htail.2 e h)

/-- The same for a segment an `edge` yields. -/
theorem inCheckOrder_edge_append (p v : Bool) (R F tail : List AlertEvent) (k k' : Nat)
    (hR : InCheckOrder R ∧ ∀ e ∈ R, k ≤ e.checkOrder ∧ e.checkOrder < k')
    (hF : InCheckOrder F ∧ ∀ e ∈ F, k ≤ e.checkOrder ∧ e.checkOrder < k') (hk : k ≤ k')
    (htail : InCheckOrder tail ∧ ∀ e ∈ tail, k' ≤ e.checkOrder) :
    InCheckOrder (edge p v R F ++ tail) ∧ ∀ e ∈ edge p v R F ++ tail, k ≤ e.checkOrder := by
  rcases edge_cases p v R F with h | h | h <;> rw [h]
  · exact inCheckOrder_append R tail k k' hR.1 (fun e he => (hR.2 e he).1)
      (fun e he => (hR.2 e he).2) hk htail
  · exact inCheckOrder_append F tail k k' hF.1 (fun e he => (hF.2 e he).1)
      (fun e he => (hF.2 e he).2) hk htail
  · exact inCheckOrder_append [] tail k k' List.Pairwise.nil (by simp) (by simp) hk htail

/-- The same for a segment that is checked only under a build switch. -/
theorem inCheckOrder_ite_edge_append (c p v : Bool) (R F tail : List AlertEvent) (k k' : Nat)
    (hR : InCheckOrder R ∧ ∀ e ∈ R, k ≤ e.checkOrder ∧ e.checkOrder < k')
    (hF : InCheckOrder F ∧ ∀ e ∈ F, k ≤ e.checkOrder ∧ e.checkOrder < k') (hk : k ≤ k')
    (htail : InCheckOrder tail ∧ ∀ e ∈ tail, k' ≤ e.checkOrder) :
    InCheckOrder ((if c = true then edge p v R F else []) ++ tail) ∧
      ∀ e ∈ (if c = true then edge p v R F else []) ++ tail, k ≤ e.checkOrder := by
  cases c
  · exact inCheckOrder_append [] tail k k' List.Pairwise.nil (by simp) (by simp) hk htail
  · exact inCheckOrder_edge_append p v R F tail k k' hR hF hk htail

/-- The events of a snapshot run are in the order of the checks. -/
theorem events_inCheckOrder (cfg : BuildFlags) (r : StatusReads) (x : Snapshot) :
    InCheckOrder (x.events cfg r) := by
  have h9 : InCheckOrder (edge x.ot r.drv_status_ot [OVERTEMPERATURE] [] ++ []) ∧
      ∀ e ∈ edge x.ot r.drv_status_ot [OVERTEMPERATURE] [] ++ [], 9 ≤ e.checkOrder :=
    inCheckOrder_edge_append _ _ _ _ [] 9 10 (by decide) (by decide) (by decide)
      ⟨List.Pairwise.nil, by simp⟩
  rw [List.append_nil] at h9
  have h8 := inCheckOrder_edge_append x.otpw r.drv_status_otpw [OVERTEMPERATURE_PREWARNING] []
    _ 8 9 (by decide) (by decide) (by decide) h9
  have h7 := inCheckOrder_edge_append x.nt (!r.drv_status_otpw && !r.drv_status_ot)
    [TEMPERATURE_NORMAL] [] _ 7 8 (by decide) (by decide) (by decide) h8
  have h6 := inCheckOrder_edge_append x.t157 r.drv_status_t157 [TEMPERATURE_ABOVE_157C]
    [TEMPERATURE_BELOW_157C] _ 6 7 (by decide) (by decide) (by decide) h7
  have h5 := inCheckOrder_edge_append x.t150 r.drv_status_t150 [TEMPERATURE_ABOVE_150C]
    [TEMPERATURE_BELOW_150C] _ 5 6 (by decide) (by decide) (by decide) h6
  have h4 := inCheckOrder_edge_append x.t143 r.drv_status_t143 [TEMPERATURE_ABOVE_143C]
    [TEMPERATURE_BELOW_143C] _ 4 5 (by decide) (by decide) (by decide) h5
  have h3 := inCheckOrder_edge_append x.t120 r.drv_status_t120 [TEMPERATURE_ABOVE_120C]
    [TEMPERATURE_BELOW_120C] _ 3 4 (by decide) (by decide) (by decide) h4
  have h2 := inCheckOrder_ite_edge_append cfg.USE_INDEX_PIN x.index x.index_triggered
    [INDEX_TRIGGERED] [] _ 2 3 (by decide) (by decide) (by decide) h3
  exact (inCheckOrder_edge_append x.diag (x.diagValue cfg r) [DIAG_TRIGGERED, STALLED] [] _ 0 2
    (by decide) (by decide) (by decide) h2).1

/-- C3 (counterexample): in the first cycle after setup with the otpw flag and
the t120 flag both rising, TEMPERATURE_ABOVE_120C is delivered before
OVERTEMPERATURE_PREWARNING, against the order the claim lists. -/
theorem cycle_events_not_in_spec_order :
    cycle_events ⟨true, true⟩ ⟨false, false, ⟨false, true, false, false, false, true, false⟩⟩
        EventState.afterSetup
      = [TEMPERATURE_ABOVE_120C, OVERTEMPERATURE_PREWARNING] ∧
    ¬ InSpecOrder
      (cycle_events ⟨true, true⟩ ⟨false, false, ⟨false, true, false, false, false, true, false⟩⟩
        EventState.afterSetup) := by
  have h : cycle_events ⟨true, true⟩
      ⟨false, false, ⟨false, true, false, false, false, true, false⟩⟩ EventState.afterSetup
      = [TEMPERATURE_ABOVE_120C, OVERTEMPERATURE_PREWARNING] := by decide
  refine ⟨h, ?_⟩
  rw [h]
  decide

/-- C3 (amended): in every poll cycle of a set up driver the events delivered
run in the order of the checks in `run_event_triggers`: diag (DIAG_TRIGGERED,
then STALLED), index, t120, t143, t150, t157, temperature-normal, prewarning,
overtemperature, none twice; and in a cycle where both the t120 flag and the
otpw flag rise, TEMPERATURE_ABOVE_120C is delivered before
OVERTEMPERATURE_PREWARNING. -/
theorem cycle_events_in_check_order (cfg : BuildFlags) (pre : List PollInput) (i : PollInput) :
    InCheckOrder (cycle_events cfg i (poll_cycles cfg pre EventState.afterSetup)) ∧
    ((poll_cycles cfg pre EventState.afterSetup).t120_handler_.prev_ = false →
      i.reads.drv_status_t120 = true →
      (poll_cycles cfg pre EventState.afterSetup).otpw_handler_.prev_ = false →
      i.reads.drv_status_otpw = true →
      ∃ l1 l2 l3, cycle_events cfg i (poll_cycles cfg pre EventState.afterSetup)
        = l1 ++ TEMPERATURE_ABOVE_120C :: (l2 ++ OVERTEMPERATURE_PREWARNING :: l3)) := by
  rw [afterSetup_eq, poll_cycles_toState, cycle_events_toState]
  refine ⟨events_inCheckOrder _ _ _, ?_⟩
  intro h1 h2 h3 h4
  generalize hX : (Snapshot.polls cfg pre Snapshot.initial).isr cfg i = X
  have h1' : X.t120 = false := by rw [← hX]; exact h1
  have h3' : X.otpw = false := by rw [← hX]; exact h3
  have e1 : edge X.t120 i.reads.drv_status_t120 [TEMPERATURE_ABOVE_120C]
      [TEMPERATURE_BELOW_120C] = [TEMPERATURE_ABOVE_120C] := by
    rw [h1', h2]; rfl
  have e2 : edge X.otpw i.reads.drv_status_otpw [OVERTEMPERATURE_PREWARNING] []
      = [OVERTEMPERATURE_PREWARNING] := by
    rw [h3', h4]; rfl
  unfold Snapshot.events
  rw [e1, e2]
  refine ⟨edge X.diag (X.diagValue cfg i.reads) [DIAG_TRIGGERED, STALLED] [] ++
      (if cfg.USE_INDEX_PIN then edge X.index X.index_triggered [INDEX_TRIGGERED] [] else []),
    edge X.t143 i.reads.drv_status_t143 [TEMPERATURE_ABOVE_143C] [TEMPERATURE_BELOW_143C] ++
      (edge X.t150 i.reads.drv_status_t150 [TEMPERATURE_ABOVE_150C] [TEMPERATURE_BELOW_150C] ++
      (edge X.t157 i.reads.drv_status_t157 [TEMPERATURE_ABOVE_157C] [TEMPERATURE_BELOW_157C] ++
      edge X.nt (!i.reads.drv_status_otpw && !i.reads.drv_status_ot) [TEMPERATURE_NORMAL] [])),
    edge X.ot i.reads.drv_status_ot [OVERTEMPERATURE] [], ?_⟩
  simp only [List.append_assoc, List.singleton_append, List.cons_append, List.nil_append]

/-- Witness for C3: the first cycle after setup with t120 and otpw rising. -/
theorem cycle_events_in_check_order_witness :
    InCheckOrder
      (cycle_events ⟨true, true⟩ ⟨false, false, ⟨false, true, false, false, false, true, false⟩⟩
        (poll_cycles ⟨true, true⟩ [] EventState.afterSetup)) ∧
    ∃ l1 l2 l3,
      cycle_events ⟨true, true⟩ ⟨false, false, ⟨false, true, false, false, false, true, false⟩⟩
        (poll_cycles ⟨true, true⟩ [] EventState.afterSetup)
        = l1 ++ TEMPERATURE_ABOVE_120C :: (l2 ++ OVERTEMPERATURE_PREWARNING :: l3) :=
  ⟨(cycle_events_in_check_order ⟨true, true⟩ []
      ⟨false, false, ⟨false, true, false, false, false, true, false⟩⟩).1,
    (cycle_events_in_check_order ⟨true, true⟩ []
      ⟨false, false, ⟨false, true, false, false, false, true, false⟩⟩).2 rfl rfl rfl rfl⟩

/-! ## C10: temperature-normal -/

theorem polls_nt (cfg : BuildFlags) (pre : List PollInput) (x : Snapshot) :
    (Snapshot.polls cfg pre x).nt = (pre.getLast?.map PollInput.normal).getD x.nt := by
  induction pre generalizing x with
  | nil => rfl
  | cons i rest ih =>
    simp only [Snapshot.polls]
    rw [ih]
    cases rest with
    | nil => rfl
    | cons j rest' =>
      rw [List.getLast?_cons_cons]
      have hne : (j :: rest').getLast? ≠ none := by simp
      cases h : (j :: rest').getLast? with
      | none => exact absurd h hne
      | some v => rfl

theorem count_edge_of_not_mem (e : AlertEvent) (p v : Bool) (R F : List AlertEvent)
    (hR : e ∉ R) (hF : e ∉ F) : (edge p v R F).count e = 0 := by
  rcases edge_cases p v R F with h | h | h <;> rw [h]
  · exact List.count_eq_zero_of_not_mem hR
  · exact List.count_eq_zero_of_not_mem hF
  · rfl

/-- TEMPERATURE_NORMAL comes from the temperature-normal handler only. -/
theorem count_normal_events (cfg : BuildFlags) (r : StatusReads) (x : Snapshot) :
    (x.events cfg r).count TEMPERATURE_NORMAL
      = if (!r.drv_status_otpw && !r.drv_status_ot) = true ∧ x.nt = false then 1 else 0 := by
  unfold Snapshot.events
  simp only [List.count_append]
  rw [count_edge_of_not_mem _ _ _ _ _ (by decide) (by decide),
    count_edge_of_not_mem _ x.t120 _ _ _ (by decide) (by decide),
    count_edge_of_not_mem _ x.t143 _ _ _ (by decide) (by decide),
    count_edge_of_not_mem _ x.t150 _ _ _ (by decide) (by decide),
    count_edge_of_not_mem _ x.t157 _ _ _ (by decide) (by decide),
    count_edge_of_not_mem _ x.otpw _ _ _ (by decide) (by decide),
    count_edge_of_not_mem _ x.ot _ _ _ (by decide) (by decide)]
  have hidx : (if cfg.USE_INDEX_PIN = true then
      edge x.index x.index_triggered [INDEX_TRIGGERED] [] else []).count TEMPERATURE_NORMAL
      = 0 := by
    cases cfg.USE_INDEX_PIN
    · rfl
    · exact count_edge_of_not_mem _ _ _ _ _ (by decide) (by decide)
  rw [hidx]
  cases x.nt <;> cases (!r.drv_status_otpw && !r.drv_status_ot) <;> simp [edge]

/-- C10: for every sequence of poll cycles after setup and every further cycle,
TEMPERATURE_NORMAL is delivered in that cycle exactly once when
`!otpw && !ot` is true in it and was false in the previous cycle (false before
the first cycle), and not at all otherwise. -/
theorem temperature_normal_on_rising_edge (cfg : BuildFlags) (pre : List PollInput)
    (i : PollInput) :
    (cycle_events cfg i (poll_cycles cfg pre EventState.afterSetup)).count TEMPERATURE_NORMAL
      = if i.normal = true ∧ previousNormal pre = false then 1 else 0 := by
  rw [afterSetup_eq, poll_cycles_toState, cycle_events_toState, count_normal_events]
  have h : ((Snapshot.polls cfg pre Snapshot.initial).isr cfg i).nt = previousNormal pre :=
    polls_nt cfg pre Snapshot.initial
  rw [h]
  rfl

/-! ## C6: the diag interrupt flag -/

theorem filter_isDiag_edge (p v : Bool) (R F : List AlertEvent)
    (hR : R.filter AlertEvent.isDiag = []) (hF : F.filter AlertEvent.isDiag = []) :
    (edge p v R F).filter AlertEvent.isDiag = [] := by
  rcases edge_cases p v R F with h | h | h <;> rw [h]
  · exact hR
  · exact hF
  · rfl

/-- The diag events of a snapshot run are those of the diag handler. -/
theorem filter_isDiag_events (cfg : BuildFlags) (r : StatusReads) (x : Snapshot) :
    (x.events cfg r).filter AlertEvent.isDiag
      = edge x.diag (x.diagValue cfg r) [DIAG_TRIGGERED, STALLED] [] := by
  unfold Snapshot.events
  have hidx : (if cfg.USE_INDEX_PIN = true then
      edge x.index x.index_triggered [INDEX_TRIGGERED] [] else []).filter AlertEvent.isDiag
      = [] := by
    cases cfg.USE_INDEX_PIN
    · rfl
    · exact filter_isDiag_edge _ _ _ _ (by decide) (by decide)
  have hd : (edge x.diag (x.diagValue cfg r) [DIAG_TRIGGERED, STALLED] []).filter
      AlertEvent.isDiag = edge x.diag (x.diagValue cfg r) [DIAG_TRIGGERED, STALLED] [] := by
    rcases edge_cases x.diag (x.diagValue cfg r) [DIAG_TRIGGERED, STALLED] [] with h | h | h <;>
      rw [h] <;> rfl
  simp only [List.filter_append]
  rw [hidx, hd, filter_isDiag_edge x.t120 _ _ _ (by decide) (by decide),
    filter_isDiag_edge x.t143 _ _ _ (by decide) (by decide),
    filter_isDiag_edge x.t150 _ _ _ (by decide) (by decide),
    filter_isDiag_edge x.t157 _ _ _ (by decide) (by decide),
    filter_isDiag_edge x.nt _ _ _ (by decide) (by decide),
    filter_isDiag_edge x.otpw _ _ _ (by decide) (by decide),
    filter_isDiag_edge x.ot _ _ _ (by decide) (by decide)]
  simp

/-- With the interrupt path in use, cycles in which the flag is not set deliver
no diag event, and the log only grows. -/
theorem polls_without_diag_flag (cfg : BuildFlags) (hcfg : cfg.USE_DIAG_PIN = true)
    (rest : List PollInput) (hrest : ∀ j ∈ rest, j.diag_isr = false) (x : Snapshot)
    (hx : x.diag_triggered = false) :
    ∃ evs, (Snapshot.polls cfg rest x).log = x.log ++ evs ∧
      evs.filter AlertEvent.isDiag = [] := by
  induction rest generalizing x with
  | nil => exact ⟨[], by simp [Snapshot.polls], rfl⟩
  | cons j rest ih =>
    have hj : j.diag_isr = false := hrest j (List.mem_cons_self _ _)
    have hflag : (x.poll cfg j).diag_triggered = false := rfl
    obtain ⟨evs, hlog, hfil⟩ :=
      ih (fun k hk => hrest k (List.mem_cons_of_mem _ hk)) (x.poll cfg j) hflag
    refine ⟨(x.isr cfg j).events cfg j.reads ++ evs, ?_, ?_⟩
    · simp only [Snapshot.polls]
      rw [hlog]
      simp [Snapshot.poll, Snapshot.run, Snapshot.isr, List.append_assoc]
    · rw [List.filter_append, hfil, filter_isDiag_events]
      have hv : (x.isr cfg j).diagValue cfg j.reads = false := by
        simp [Snapshot.diagValue, Snapshot.isr, hcfg, hx, hj]
      rw [hv]
      cases (x.isr cfg j).diag <;> rfl

/-- C6: with the interrupt path in use (`USE_DIAG_PIN`) and the diag handler of a
set up driver in its initial state (previous value false), a cycle before
which the rising-edge flag was set, followed by any number of cycles before
which it was not set, delivers for diag exactly DIAG_TRIGGERED then STALLED,
once, over all those cycles together. -/
theorem diag_flag_delivers_once (cfg : BuildFlags) (hcfg : cfg.USE_DIAG_PIN = true)
    (pre : List PollInput)
    (hprev : (poll_cycles cfg pre EventState.afterSetup).diag_handler_.prev_ = false)
    (i : PollInput) (hi : i.diag_isr = true)
    (rest : List PollInput) (hrest : ∀ j ∈ rest, j.diag_isr = false) :
    (delivered (poll_cycles cfg pre EventState.afterSetup)
        (poll_cycles cfg (i :: rest) (poll_cycles cfg pre EventState.afterSetup))).filter
      AlertEvent.isDiag = [DIAG_TRIGGERED, STALLED] := by
  rw [afterSetup_eq, poll_cycles_toState] at hprev ⊢
  rw [poll_cycles_toState]
  generalize Snapshot.polls cfg pre Snapshot.initial = x at hprev ⊢
  have hd : x.diag = false := hprev
  obtain ⟨evs, hlog, hfil⟩ :=
    polls_without_diag_flag cfg hcfg rest hrest (x.poll cfg i) rfl
  unfold delivered
  rw [toState_log, toState_log]
  simp only [Snapshot.polls]
  rw [hlog]
  have hfirst : (x.poll cfg i).log = x.log ++ (x.isr cfg i).events cfg i.reads := rfl
  rw [hfirst, List.append_assoc, List.drop_left, List.filter_append, hfil,
    filter_isDiag_events]
  have hv : (x.isr cfg i).diagValue cfg i.reads = true := by
    simp [Snapshot.diagValue, Snapshot.isr, hcfg, hi]
  have hd' : (x.isr cfg i).diag = false := hd
  rw [hv, hd']
  rfl

/-- Witness for C6: right after setup, the flag set before the first cycle and
two more cycles without it, with the temperature flags changing meanwhile. -/
theorem diag_flag_delivers_once_witness :
    (delivered (poll_cycles ⟨true, true⟩ [] EventState.afterSetup)
        (poll_cycles ⟨true, true⟩
          (⟨true, false, ⟨false, false, false, false, false, false, false⟩⟩ ::
            [⟨false, false, ⟨false, true, false, false, false, true, false⟩⟩,
             ⟨false, true, ⟨false, false, false, false, false, false, false⟩⟩])
          (poll_cycles ⟨true, true⟩ [] EventState.afterSetup))).filter
      AlertEvent.isDiag = [DIAG_TRIGGERED, STALLED] :=
  diag_flag_delivers_once ⟨true, true⟩ rfl [] rfl
    ⟨true, false, ⟨false, false, false, false, false, false, false⟩⟩ rfl
    [⟨false, false, ⟨false, true, false, false, false, true, false⟩⟩,
     ⟨false, true, ⟨false, false, false, false, false, false, false⟩⟩] (by decide)

/-! ## C9: the UART callback -/

/-- C9: on a registered id the call succeeds and appends to the component's UART
calls, in this order, `write_array(writeLength)`, `read_array(writeLength)`
and `flush` when `writeLength > 0` (nothing when it is 0), then
`read_array(readLength)` when `readLength > 0`; the bytes transmitted are the
first `writeLength` bytes of the buffer, and `writeLength + readLength` bytes
are taken from the receive buffer. -/
theorem tmc2209_readWriteUART_operations (components : Components) (id : Nat)
    (comp : UARTDevice) (hid : components id = some comp) (data : Buffer)
    (writeLength readLength : Nat) :
    ∃ data' comp', tmc2209_readWriteUART components id data writeLength readLength
        = some (true, data', comp') ∧
      comp'.ops = comp.ops ++
        ((if writeLength > 0 then
            [UartOp.write_array writeLength, UartOp.read_array writeLength, UartOp.flush]
          else []) ++
         (if readLength > 0 then [UartOp.read_array readLength] else [])) ∧
      comp'.tx = comp.tx ++ (List.range writeLength).map data ∧
      comp'.rx = comp.rx.drop (writeLength + readLength) := by
  unfold tmc2209_readWriteUART
  rw [hid]
  by_cases hw : writeLength > 0 <;> by_cases hr : readLength > 0
  · exact ⟨_, _, by simp only [hw, hr, if_true]; rfl,
      by simp [hw, hr, read_array, write_array, flush],
      by simp [hw, hr, read_array, write_array, flush],
      by simp [hw, hr, read_array, write_array, flush, Nat.add_comm]⟩
  · have hr0 : readLength = 0 := by omega
    exact ⟨_, _, by simp only [hw, hr, if_true, if_false]; rfl,
      by simp [hw, hr0, read_array, write_array, flush],
      by simp [hw, hr0, read_array, write_array, flush],
      by simp [hw, hr0, read_array, write_array, flush]⟩
  · have hw0 : writeLength = 0 := by omega
    exact ⟨_, _, by simp only [hw, hr, if_true, if_false]; rfl,
      by simp [hw0, hr, read_array, write_array, flush],
      by simp [hw0, hr, read_array, write_array, flush],
      by simp [hw0, hr, read_array, write_array, flush]⟩
  · have hw0 : writeLength = 0 := by omega
    have hr0 : readLength = 0 := by omega
    exact ⟨_, _, by simp only [hw, hr, if_false]; rfl,
      by simp [hw0, hr0], by simp [hw0, hr0], by simp [hw0, hr0]⟩

/-- Witness for C9: a four-byte request with a two-byte reply on the registered
id 0. -/
theorem tmc2209_readWriteUART_operations_witness :
    ∃ data' comp', tmc2209_readWriteUART sampleComponents 0 sampleRequest 4 2
        = some (true, data', comp') ∧
      comp'.ops = [] ++
        ((if 4 > 0 then [UartOp.write_array 4, UartOp.read_array 4, UartOp.flush] else []) ++
         (if 2 > 0 then [UartOp.read_array 2] else [])) ∧
      comp'.tx = [] ++ (List.range 4).map sampleRequest ∧
      comp'.rx = [5, 0, 108, 202, 7, 9].drop (4 + 2) :=
  tmc2209_readWriteUART_operations sampleComponents 0 ⟨[], [5, 0, 108, 202, 7, 9], []⟩ rfl
    sampleRequest 4 2

/-! ## C4: the current scale -/

theorem FieldSpec.disjoint_symm {f g : FieldSpec} (h : f.disjoint g) : g.disjoint f := by
  unfold FieldSpec.disjoint at *
  rcases h with h | h | h
  · exact Or.inl (Ne.symm h)
  · exact Or.inr (Or.inr h)
  · exact Or.inr (Or.inl h)

/-- What `set_ihold_irun_irun`, `set_ihold_irun_ihold` after a vsense write leave
to read back: the vsense bit and the scale. -/
theorem readback_after_writes (T : FieldTable) (hT : T.WF) (d : Driver) (b : Bool)
    (c hold : Nat) (hc : c ≤ 31) :
    get_chopconf_vsense T
        (set_ihold_irun_ihold T hold (set_ihold_irun_irun T c (set_chopconf_vsense T b d))) = b ∧
    get_ihold_irun_irun T
        (set_ihold_irun_ihold T hold (set_ihold_irun_irun T c (set_chopconf_vsense T b d))) = c := by
  obtain ⟨_, hV, hH, hR, _, _, hHR, hHV, hRV, _, _⟩ := hT
  have hVin : T.VSENSE.offset + T.VSENSE.width ≤ 32 := hV.2.2
  have hHin : T.IHOLD.offset + T.IHOLD.width ≤ 32 := hH.2.2
  have hRin : T.IRUN.offset + T.IRUN.width ≤ 32 := hR.2.2
  constructor
  · unfold get_chopconf_vsense set_ihold_irun_ihold set_ihold_irun_irun set_chopconf_vsense
    simp only
    rw [read_field_write_field_of_disjoint _ _ hRin hVin hRV,
      read_field_write_field_of_disjoint _ _ hHin hVin hHV,
      read_field_write_field _ 1 hV, to_bool_natCast]
    cases b <;> simp
  · unfold get_ihold_irun_irun set_ihold_irun_ihold set_ihold_irun_irun set_chopconf_vsense
    simp only
    rw [read_field_write_field_of_disjoint _ _ hRin hHin (FieldSpec.disjoint_symm hHR),
      read_field_write_field _ 5 hH, Nat.mod_eq_of_lt (by omega)]
    exact to_uint8_natCast c (by omega)

/-- What `set_rms_current_` leaves to read back, for a positive current and a
first intermediate value below 256. -/
theorem set_rms_current__readback (T : FieldTable) (hT : T.WF) (d : Driver)
    (hI : 0 < d.rms_current_) (hR : 0 < d.rsense_)
    (hfit : scaleValue d.rms_current_ d.rsense_ 0.325 < 256) :
    get_chopconf_vsense T (set_rms_current_ T d)
      = decide (⌊scaleValue d.rms_current_ d.rsense_ 0.325⌋.toNat < 16) ∧
    get_ihold_irun_irun T (set_rms_current_ T d)
      = min 31 (if ⌊scaleValue d.rms_current_ d.rsense_ 0.325⌋.toNat < 16
          then ⌊scaleValue d.rms_current_ d.rsense_ 0.180⌋.toNat
          else ⌊scaleValue d.rms_current_ d.rsense_ 0.325⌋.toNat) := by
  have hpos : 0 < d.rms_current_ * (d.rsense_ + 0.02) := by
    apply mul_pos hI
    norm_num
    linarith
  have hX0 : -1 < scaleValue d.rms_current_ d.rsense_ 0.325 := by
    unfold scaleValue
    have : 0 < 32.0 * 1.41421 * d.rms_current_ * (d.rsense_ + 0.02) / 0.325 := by
      have h1 : 32.0 * 1.41421 * d.rms_current_ * (d.rsense_ + 0.02) / 0.325
          = (32.0 * 1.41421 / 0.325) * (d.rms_current_ * (d.rsense_ + 0.02)) := by ring
      rw [h1]
      exact mul_pos (by norm_num) hpos
    linarith
  have hX1 : scaleValue d.rms_current_ d.rsense_ 0.180
      = (scaleValue d.rms_current_ d.rsense_ 0.325 + 1) * (0.325 / 0.180) - 1 := by
    unfold scaleValue
    norm_num
    ring
  have e0 : float_to_uint8 (32.0 * 1.41421 * d.rms_current_ * (d.rsense_ + 0.02) / 0.325 - 1)
      = ⌊scaleValue d.rms_current_ d.rsense_ 0.325⌋.toNat :=
    float_to_uint8_floor _ hX0 hfit
  unfold set_rms_current_
  simp only [e0]
  by_cases hlow : ⌊scaleValue d.rms_current_ d.rsense_ 0.325⌋.toNat < 16
  · have hlt17 : scaleValue d.rms_current_ d.rsense_ 0.325 < 16 := by
      by_contra hge
      have hge' : (16 : ℚ) ≤ scaleValue d.rms_current_ d.rsense_ 0.325 := le_of_not_lt hge
      have : (16 : ℤ) ≤ ⌊scaleValue d.rms_current_ d.rsense_ 0.325⌋ :=
        Int.le_floor.mpr (by exact_mod_cast hge')
      omega
    have e1 : float_to_uint8
        (32.0 * 1.41421 * d.rms_current_ * (d.rsense_ + 0.02) / 0.180 - 1)
        = ⌊scaleValue d.rms_current_ d.rsense_ 0.180⌋.toNat := by
      apply float_to_uint8_floor (scaleValue d.rms_current_ d.rsense_ 0.180)
      · rw [hX1]
        have : 0 < (scaleValue d.rms_current_ d.rsense_ 0.325 + 1) * (0.325 / 0.180) :=
          mul_pos (by linarith) (by norm_num)
        linarith
      · rw [hX1]
        have : (scaleValue d.rms_current_ d.rsense_ 0.325 + 1) * (0.325 / 0.180)
            < 17 * (0.325 / 0.180) :=
          mul_lt_mul_of_pos_right (by linarith) (by norm_num)
        have h17 : (17 : ℚ) * (0.325 / 0.180) < 257 := by norm_num
        linarith
    simp only [hlow, if_true, e1]
    have := readback_after_writes T hT d true
      (if ⌊scaleValue d.rms_current_ d.rsense_ 0.180⌋.toNat > 31 then 31
        else ⌊scaleValue d.rms_current_ d.rsense_ 0.180⌋.toNat)
      (float_to_uint8 (((if ⌊scaleValue d.rms_current_ d.rsense_ 0.180⌋.toNat > 31 then 31
        else ⌊scaleValue d.rms_current_ d.rsense_ 0.180⌋.toNat : ℕ) : ℚ) *
          d.rms_current_hold_scale_))
      (by split_ifs <;> omega)
    refine ⟨by simpa using this.1, ?_⟩
    rw [show (set_ihold_irun_irun T _ (set_chopconf_vsense T true d)).rms_current_hold_scale_
      = d.rms_current_hold_scale_ from rfl]
    rw [this.2]
    split_ifs <;> omega
  · simp only [hlow, if_false]
    have := readback_after_writes T hT d false
      (if ⌊scaleValue d.rms_current_ d.rsense_ 0.325⌋.toNat > 31 then 31
        else ⌊scaleValue d.rms_current_ d.rsense_ 0.325⌋.toNat)
      (float_to_uint8 (((if ⌊scaleValue d.rms_current_ d.rsense_ 0.325⌋.toNat > 31 then 31
        else ⌊scaleValue d.rms_current_ d.rsense_ 0.325⌋.toNat : ℕ) : ℚ) *
          d.rms_current_hold_scale_))
      (by split_ifs <;> omega)
    refine ⟨by simpa using this.1, ?_⟩
    rw [show (set_ihold_irun_irun T _ (set_chopconf_vsense T false d)).rms_current_hold_scale_
      = d.rms_current_hold_scale_ from rfl]
    rw [this.2]
    split_ifs <;> omega

theorem sqrt_two_gt : (1.4142 : ℝ) < Real.sqrt 2 := by
  rw [Real.lt_sqrt (by norm_num)]
  norm_num

theorem sqrt_two_lt : Real.sqrt 2 < (1.4143 : ℝ) := by
  rw [Real.sqrt_lt' (by norm_num)]
  norm_num

theorem set_rms_current__rsense (T : FieldTable) (d : Driver) :
    (set_rms_current_ T d).rsense_ = d.rsense_ := by
  unfold set_rms_current_
  simp only
  split_ifs <;> rfl

/-- The arithmetic of the round trip: with `s ≤ X < s + 1` for the intermediate
value `X = 32*1.41421*I*A/V - 1 < 32`, the current of scale `s` is at most `I`
and misses it by at most 1.0001 steps taken with `sqrtf(2)`. -/
theorem round_trip_bound (I A V : ℚ) (s : ℕ) (hV : 0 < V) (hA : 0 < A)
    (hs : (s : ℚ) ≤ 32.0 * 1.41421 * I * A / V - 1)
    (hs' : 32.0 * 1.41421 * I * A / V - 1 < (s : ℚ) + 1)
    (hX : 32.0 * 1.41421 * I * A / V - 1 < 32) :
    ((s : ℚ) + 1) / 32.0 * V / A / sqrtf_2 ≤ I ∧
    I - ((s : ℚ) + 1) / 32.0 * V / A / sqrtf_2 ≤ 1.0001 * V / 32 / A / sqrtf_2 := by
  have hu : 0 < V / (32 * A) := by positivity
  generalize hXdef : 32.0 * 1.41421 * I * A / V - 1 = X at hs hs' hX
  have hI : I = V / (32 * A) * ((X + 1) / 1.41421) := by
    rw [← hXdef]
    field_simp
    ring
  have hI' : ((s : ℚ) + 1) / 32.0 * V / A / sqrtf_2
      = V / (32 * A) * (((s : ℚ) + 1) / sqrtf_2) := by
    unfold sqrtf_2
    field_simp
    ring
  have hB : 1.0001 * V / 32 / A / sqrtf_2 = V / (32 * A) * (1.0001 / sqrtf_2) := by
    unfold sqrtf_2
    field_simp
    ring
  rw [hI', hB]
  constructor
  · rw [hI]
    apply mul_le_mul_of_nonneg_left _ hu.le
    unfold sqrtf_2
    norm_num
    linarith
  · have : I - V / (32 * A) * (((s : ℚ) + 1) / sqrtf_2)
        = V / (32 * A) * ((X + 1) / 1.41421 - ((s : ℚ) + 1) / sqrtf_2) := by
      rw [hI]; ring
    rw [this]
    apply mul_le_mul_of_nonneg_left _ hu.le
    unfold sqrtf_2
    norm_num
    linarith

/-- From steps taken with `sqrtf(2)` to steps taken with the square root of
two. -/
theorem withinSteps_of_rat (vsense : Bool) (R I I' : ℚ) (hA : 0 < R + 0.02) (h1 : I' ≤ I)
    (h2 : I - I' ≤ 1.0001 * (if vsense then 0.180 else 0.325) / 32 / (R + 0.02) / sqrtf_2) :
    WithinSteps 1.0002 vsense R I I' := by
  unfold WithinSteps
  have h1' : ((I' : ℚ) : ℝ) ≤ ((I : ℚ) : ℝ) := by exact_mod_cast h1
  rw [abs_sub_comm, abs_of_nonneg (by linarith)]
  have h2' : ((I : ℚ) : ℝ) - ((I' : ℚ) : ℝ)
      ≤ 1.0001 * (if vsense then 0.180 else 0.325) / 32 / (((R : ℚ) : ℝ) + 0.02)
        / ((sqrtf_2 : ℚ) : ℝ) := by
    have := (Rat.cast_le (K := ℝ)).mpr h2
    cases vsense <;> simpa using this
  refine le_trans h2' ?_
  have hA' : (0 : ℝ) < ((R : ℚ) : ℝ) + 0.02 := by
    have := (Rat.cast_lt (K := ℝ)).mpr hA
    simpa using this
  have hV : (0 : ℝ) < (if vsense then (0.180 : ℝ) else 0.325) := by
    cases vsense <;> norm_num
  have hsq := sqrt_two_lt
  have hsq0 : (0 : ℝ) < Real.sqrt 2 := by positivity
  have hr : (((sqrtf_2 : ℚ) : ℝ)) = 11863283 / 8388608 := by
    unfold sqrtf_2; push_cast; rfl
  rw [hr]
  have hk : (0 : ℝ) < (if vsense then (0.180 : ℝ) else 0.325) / 32 / (((R : ℚ) : ℝ) + 0.02) := by
    positivity
  have e1 : 1.0001 * (if vsense then (0.180 : ℝ) else 0.325) / 32 / (((R : ℚ) : ℝ) + 0.02)
      / (11863283 / 8388608)
      = ((if vsense then (0.180 : ℝ) else 0.325) / 32 / (((R : ℚ) : ℝ) + 0.02))
        * (1.0001 / (11863283 / 8388608)) := by ring
  have e2 : ((1.0002 : ℚ) : ℝ) * (if vsense then (0.180 : ℝ) else 0.325) / 32
      / (((R : ℚ) : ℝ) + 0.02) / Real.sqrt 2
      = ((if vsense then (0.180 : ℝ) else 0.325) / 32 / (((R : ℚ) : ℝ) + 0.02))
        * (1.0002 / Real.sqrt 2) := by push_cast; ring
  rw [e1, e2]
  apply mul_le_mul_of_nonneg_left _ hk.le
  rw [div_le_div_iff₀ (by norm_num) hsq0]
  nlinarith

theorem floor_toNat_bounds (q : ℚ) (h : 0 ≤ q) :
    ((⌊q⌋.toNat : ℕ) : ℚ) ≤ q ∧ q < ((⌊q⌋.toNat : ℕ) : ℚ) + 1 := by
  have hfl : 0 ≤ ⌊q⌋ := Int.floor_nonneg.mpr h
  have hcast : ((⌊q⌋.toNat : ℕ) : ℤ) = ⌊q⌋ := Int.toNat_of_nonneg hfl
  have hcastq : ((⌊q⌋.toNat : ℕ) : ℚ) = ((⌊q⌋ : ℤ) : ℚ) := by
    rw [← Int.cast_natCast, hcast]
  rw [hcastq]
  exact ⟨Int.floor_le q, Int.lt_floor_add_one q⟩

/-- The round trip for a driver whose sense resistance is `R`. -/
theorem round_trip_of_rsense (T : FieldTable) (hT : T.WF) (d : Driver) (I : ℚ)
    (hR : 0.05 ≤ d.rsense_) (hlo : 0.1 ≤ I)
    (hun : scaleValue I d.rsense_ 0.325 < 32) :
    get_rms_current T (set_rms_current T I d) ≤ I ∧
    WithinSteps 1.0002 (get_chopconf_vsense T (set_rms_current T I d)) d.rsense_ I
      (get_rms_current T (set_rms_current T I d)) := by
  have hRpos : 0 < d.rsense_ := by linarith
  have hA : 0 < d.rsense_ + 0.02 := by linarith
  have hIpos : 0 < I := by linarith
  obtain ⟨hv, hsc⟩ := set_rms_current__readback T hT { d with rms_current_ := I } hIpos hRpos
    (by linarith)
  have hv' : get_chopconf_vsense T (set_rms_current T I d)
      = decide (⌊scaleValue I d.rsense_ 0.325⌋.toNat < 16) := hv
  have hsc' : get_ihold_irun_irun T (set_rms_current T I d)
      = min 31 (if ⌊scaleValue I d.rsense_ 0.325⌋.toNat < 16
          then ⌊scaleValue I d.rsense_ 0.180⌋.toNat
          else ⌊scaleValue I d.rsense_ 0.325⌋.toNat) := hsc
  have hrs : (set_rms_current T I d).rsense_ = d.rsense_ := set_rms_current__rsense T _
  have hprod : 0.1 * (0.05 + 0.02) ≤ I * (d.rsense_ + 0.02) :=
    mul_le_mul hlo (by linarith) (by norm_num) (by linarith)
  have hX1 : scaleValue I d.rsense_ 0.180
      = (scaleValue I d.rsense_ 0.325 + 1) * (0.325 / 0.180) - 1 := by
    unfold scaleValue
    norm_num
    ring
  have hX0lo : -1 < scaleValue I d.rsense_ 0.325 := by
    have : scaleValue I d.rsense_ 0.325
        = (32.0 * 1.41421 / 0.325) * (I * (d.rsense_ + 0.02)) - 1 := by
      unfold scaleValue; ring
    rw [this]
    have : 0 < (32.0 * 1.41421 / 0.325 : ℚ) * (I * (d.rsense_ + 0.02)) :=
      mul_pos (by norm_num) (by linarith)
    linarith
  have hX1lo : 0 ≤ scaleValue I d.rsense_ 0.180 := by
    have : scaleValue I d.rsense_ 0.180
        = (32.0 * 1.41421 / 0.180) * (I * (d.rsense_ + 0.02)) - 1 := by
      unfold scaleValue; ring
    rw [this]
    have : (32.0 * 1.41421 / 0.180 : ℚ) * (0.1 * (0.05 + 0.02))
        ≤ (32.0 * 1.41421 / 0.180) * (I * (d.rsense_ + 0.02)) :=
      mul_le_mul_of_nonneg_left hprod (by norm_num)
    have h2 : (1 : ℚ) ≤ (32.0 * 1.41421 / 0.180) * (0.1 * (0.05 + 0.02)) := by norm_num
    linarith
  unfold get_rms_current current_scale_to_rms_current_
  rw [hrs, hv', hsc']
  by_cases hlow : ⌊scaleValue I d.rsense_ 0.325⌋.toNat < 16
  · have hX0 : scaleValue I d.rsense_ 0.325 < 16 := by
      by_contra hge
      have hge' : (16 : ℚ) ≤ scaleValue I d.rsense_ 0.325 := le_of_not_lt hge
      have : (16 : ℤ) ≤ ⌊scaleValue I d.rsense_ 0.325⌋ :=
        Int.le_floor.mpr (by exact_mod_cast hge')
      omega
    obtain ⟨hs, hs'⟩ := floor_toNat_bounds _ hX1lo
    have hX1hi : scaleValue I d.rsense_ 0.180 < 31 := by
      rw [hX1]
      have : (scaleValue I d.rsense_ 0.325 + 1) * (0.325 / 0.180) < 17 * (0.325 / 0.180) :=
        mul_lt_mul_of_pos_right (by linarith) (by norm_num)
      have h17 : (17 : ℚ) * (0.325 / 0.180) < 32 := by norm_num
      linarith
    have hs31 : ⌊scaleValue I d.rsense_ 0.180⌋.toNat ≤ 31 := by
      have : ((⌊scaleValue I d.rsense_ 0.180⌋.toNat : ℕ) : ℚ) < 31 := lt_of_le_of_lt hs hX1hi
      have : ⌊scaleValue I d.rsense_ 0.180⌋.toNat < 31 := by exact_mod_cast this
      omega
    simp only [hlow, if_true, decide_True, min_eq_right hs31]
    obtain ⟨hb1, hb2⟩ := round_trip_bound I (d.rsense_ + 0.02) 0.180
      ⌊scaleValue I d.rsense_ 0.180⌋.toNat (by norm_num) hA hs hs' (by
        have : scaleValue I d.rsense_ 0.180 < 32 := by linarith
        exact this)
    exact ⟨hb1, withinSteps_of_rat true d.rsense_ I _ hA hb1 (by simpa using hb2)⟩
  · have hs16 : (16 : ℤ) ≤ ⌊scaleValue I d.rsense_ 0.325⌋ := by omega
    have hX0 : (16 : ℚ) ≤ scaleValue I d.rsense_ 0.325 := by
      have := Int.le_floor.mp hs16
      exact_mod_cast this
    obtain ⟨hs, hs'⟩ := floor_toNat_bounds (scaleValue I d.rsense_ 0.325) (by linarith)
    have hs31 : ⌊scaleValue I d.rsense_ 0.325⌋.toNat ≤ 31 := by
      have : ((⌊scaleValue I d.rsense_ 0.325⌋.toNat : ℕ) : ℚ) < 32 := lt_of_le_of_lt hs hun
      have : ⌊scaleValue I d.rsense_ 0.325⌋.toNat < 32 := by exact_mod_cast this
      omega
    simp only [hlow, if_false, decide_False, min_eq_right hs31]
    obtain ⟨hb1, hb2⟩ := round_trip_bound I (d.rsense_ + 0.02) 0.325
      ⌊scaleValue I d.rsense_ 0.325⌋.toNat (by norm_num) hA hs hs' hun
    exact ⟨hb1, withinSteps_of_rat false d.rsense_ I _ hA hb1 (by simpa using hb2)⟩

/-- C5 (counterexample): at 2.0 A and 0.15 ohm the scale is clamped to 31 and the
recovered current, about 1.35 A, is about 0.65 A away, more than one
quantization step (about 0.042 A); and at 1.104857 A and 0.11 ohm, without
clamping, the recovered current of scale 18 misses by slightly more than one
step, because the forward direction uses 1.41421 and the inverse `sqrtf(2)`. -/
theorem rms_current_round_trip_exceeds_step :
    ¬ WithinSteps 1
      (get_chopconf_vsense datasheetFields
        (set_rms_current datasheetFields 2.0 { driverAfterSetup with rsense_ := 0.15 }))
      0.15 2.0
      (get_rms_current datasheetFields
        (set_rms_current datasheetFields 2.0 { driverAfterSetup with rsense_ := 0.15 })) ∧
    ¬ WithinSteps 1
      (get_chopconf_vsense datasheetFields
        (set_rms_current datasheetFields 1.104857 driverAfterSetup))
      0.11 1.104857
      (get_rms_current datasheetFields
        (set_rms_current datasheetFields 1.104857 driverAfterSetup)) := by
  have hv1 : get_chopconf_vsense datasheetFields
      (set_rms_current datasheetFields 2.0 { driverAfterSetup with rsense_ := 0.15 })
      = false := by decide!
  have hi1 : get_rms_current datasheetFields
      (set_rms_current datasheetFields 2.0 { driverAfterSetup with rsense_ := 0.15 })
      = 32 / 32 * 0.325 / 0.17 / (11863283 / 8388608) := by decide!
  have hv2 : get_chopconf_vsense datasheetFields
      (set_rms_current datasheetFields 1.104857 driverAfterSetup) = false := by decide!
  have hi2 : get_rms_current datasheetFields
      (set_rms_current datasheetFields 1.104857 driverAfterSetup)
      = 19 / 32 * 0.325 / 0.13 / (11863283 / 8388608) := by decide!
  have h1 := sqrt_two_gt
  have hsq0 : (0 : ℝ) < Real.sqrt 2 := by positivity
  constructor
  · rw [hv1, hi1]
    unfold WithinSteps
    intro h
    rw [abs_sub_comm, abs_of_nonneg (by push_cast; norm_num)] at h
    rw [le_div_iff₀ hsq0] at h
    push_cast at h
    norm_num at h
    nlinarith
  · rw [hv2, hi2]
    unfold WithinSteps
    intro h
    rw [abs_sub_comm, abs_of_nonneg (by push_cast; norm_num)] at h
    rw [le_div_iff₀ hsq0] at h
    push_cast at h
    norm_num at h
    nlinarith

/-- C5 (amended): for every `I` from 0.1 A to 2.0 A and `Rsense` in
{0.05, 0.11, 0.15} for which the scale is not clamped
(`32*1.41421*I*(Rsense+0.02)/0.325 - 1 < 32`), the current recovered from the
scale and vsense bit written by `set_rms_current(I)` is at most `I` and within
1.0002 quantization steps of it:
`I - I' ≤ 1.0002 * Vfs / 32 / (Rsense + 0.02) / sqrt(2)`. -/
theorem rms_current_round_trip (T : FieldTable) (hT : T.WF) (d : Driver)
    (hR : d.rsense_ = 0.05 ∨ d.rsense_ = 0.11 ∨ d.rsense_ = 0.15) (I : ℚ)
    (hlo : 0.1 ≤ I) (_ : I ≤ 2.0) (hun : scaleValue I d.rsense_ 0.325 < 32) :
    get_rms_current T (set_rms_current T I d) ≤ I ∧
    WithinSteps 1.0002 (get_chopconf_vsense T (set_rms_current T I d)) d.rsense_ I
      (get_rms_current T (set_rms_current T I d)) := by
  have hR' : 0.05 ≤ d.rsense_ := by
    rcases hR with h | h | h <;> rw [h] <;> norm_num
  exact round_trip_of_rsense T hT d I hR' hlo hun

/-- Witness for C5: 1.0 A on the set up driver with 0.11 ohm (scale 17, vsense
false). -/
theorem rms_current_round_trip_witness :
    driverAfterSetup.rsense_ = 0.11 ∧ scaleValue 1.0 driverAfterSetup.rsense_ 0.325 < 32 ∧
    get_ihold_irun_irun datasheetFields (set_rms_current datasheetFields 1.0 driverAfterSetup)
      = 17 ∧
    get_rms_current datasheetFields (set_rms_current datasheetFields 1.0 driverAfterSetup)
      ≤ 1.0 ∧
    WithinSteps 1.0002
      (get_chopconf_vsense datasheetFields (set_rms_current datasheetFields 1.0 driverAfterSetup))
      driverAfterSetup.rsense_ 1.0
      (get_rms_current datasheetFields (set_rms_current datasheetFields 1.0 driverAfterSetup)) :=
  ⟨rfl, by decide!, by decide!,
    rms_current_round_trip datasheetFields (by decide) driverAfterSetup (Or.inr (Or.inl rfl)) 1.0
      (by decide!) (by decide!) (by decide!)⟩

end TMC2209
